import Mathlib

/-!
Verification of the recrafter crawl orchestration and structural-similarity
engine against its specification.

The Python sources are shallowly embedded:
* `recrafter/analyzer.py` (feature extraction, pairwise similarity, clustering
  front end) over an abstract parsed-document model (`Doc`) — HTML parsing is an
  opaque collaborator that yields a traversable element list and extracted text.
* `recrafter/crawler.py` (`CrawlerEngine._crawl_page` and friends) as a state
  machine with explicit state passing; the network is a function from URL to an
  optional response, the `asyncio.Semaphore` is an explicit counter, and — since
  the crawl spawns no tasks besides the root one — a blocked semaphore
  acquisition is a deadlock, recorded in the state.
* `recrafter/utils.py` (`normalize_url`) together with the parts of CPython
  3.11's `urllib.parse` that it calls (`urlparse`, `urlsplit`, `urljoin`,
  `urlunparse`, `urlunsplit`), over `List Char` as the string model.

Machine floats are modelled by exact rationals (`ℚ`).
-/

set_option maxHeartbeats 1000000

namespace Recrafter

/-! ## Frequency dictionaries (`Dict[str, int]` with counter values)

A Python dict of counts is a finite map: a finite key set plus a value
function (values outside the key set are irrelevant to every operation the
analyzer performs). -/

structure FreqDict where
  keys : Finset String
  val : String → ℕ

/-- The per-common-key value score used by
`ContentAnalyzer._calculate_dict_similarity` (analyzer.py:701-707) and, with
the same arithmetic, by `_calculate_content_similarity` (analyzer.py:721-726):
`1.0` when `max(val1, val2) == 0`, else `1.0 - abs(val1 - val2) / max_val`. -/
def valScore (v1 v2 : ℕ) : ℚ :=
  if max v1 v2 = 0 then 1 else 1 - |(v1 : ℚ) - (v2 : ℚ)| / ((max v1 v2 : ℕ) : ℚ)

/-- `ContentAnalyzer._calculate_dict_similarity` (analyzer.py:682-712).
The Python literals 0.5, 0.3 and 0.7 are written `1/2`, `3/10`, `7/10`. -/
def calculate_dict_similarity (d1 d2 : FreqDict) : ℚ :=
  if d1.keys = ∅ ∧ d2.keys = ∅ then 1
  else if d1.keys = ∅ ∨ d2.keys = ∅ then 0
  else
    let all_keys := d1.keys ∪ d2.keys
    let key_similarity : ℚ := ((d1.keys ∩ d2.keys).card : ℚ) / (all_keys.card : ℚ)
    let common_keys := d1.keys ∩ d2.keys
    if common_keys = ∅ then key_similarity * (1/2)
    else
      let value_similarity : ℚ :=
        (Finset.sum common_keys fun k => valScore (d1.val k) (d2.val k)) / (common_keys.card : ℚ)
      key_similarity * (3/10) + value_similarity * (7/10)

/-! ## Content structure

`ContentAnalyzer._extract_content_structure` (analyzer.py:628-638) always
builds the same six counters, so the content structure is a record; the
"missing key" and "non-numeric value" branches of
`_calculate_content_similarity` are unreachable for these inputs. -/

structure ContentStructure where
  text_length : ℕ
  heading_count : ℕ
  paragraph_count : ℕ
  link_count : ℕ
  image_count : ℕ
  list_count : ℕ

/-- The six per-counter scores of `ContentAnalyzer._calculate_content_similarity`
(analyzer.py:714-732), in the dict insertion order of
`_extract_content_structure`. -/
def contentScores (c1 c2 : ContentStructure) : List ℚ :=
  [ valScore c1.text_length c2.text_length
  , valScore c1.heading_count c2.heading_count
  , valScore c1.paragraph_count c2.paragraph_count
  , valScore c1.link_count c2.link_count
  , valScore c1.image_count c2.image_count
  , valScore c1.list_count c2.list_count ]

/-- `ContentAnalyzer._calculate_content_similarity` (analyzer.py:714-732):
`np.mean(similarities) if similarities else 0.0`. -/
def calculate_content_similarity (c1 c2 : ContentStructure) : ℚ :=
  let sims := contentScores c1 c2
  if sims = [] then 0 else sims.sum / (sims.length : ℚ)

/-! ## Structural features and page similarity -/

/-- The feature bag built by `ContentAnalyzer._extract_structural_features`
(analyzer.py:556-569). -/
structure Features where
  tag_structure : FreqDict
  class_patterns : FreqDict
  id_patterns : FreqDict
  component_count : ℕ
  layout_signature : List Char
  content_structure : ContentStructure

/-- The component-count sub-score of `_calculate_page_similarity`
(analyzer.py:673): `1.0 - abs(c1 - c2) / max(c1, c2, 1)`. -/
def compCountSim (c1 c2 : ℕ) : ℚ :=
  1 - |(c1 : ℚ) - (c2 : ℚ)| / ((max c1 (max c2 1) : ℕ) : ℚ)

/-- `ContentAnalyzer._calculate_page_similarity` (analyzer.py:656-680): the
weighted sum of the five sub-scores.  The Python weights 0.3, 0.25, 0.2, 0.15,
0.1 are written `3/10`, `1/4`, `1/5`, `3/20`, `1/10`. -/
def calculate_page_similarity (f1 f2 : Features) : ℚ :=
  let tag_sim := calculate_dict_similarity f1.tag_structure f2.tag_structure
  let class_sim := calculate_dict_similarity f1.class_patterns f2.class_patterns
  let layout_sim : ℚ := if f1.layout_signature = f2.layout_signature then 1 else 0
  let comp_sim : ℚ := compCountSim f1.component_count f2.component_count
  let content_sim := calculate_content_similarity f1.content_structure f2.content_structure
  tag_sim * (3/10) + class_sim * (1/4) + layout_sim * (1/5) +
    comp_sim * (3/20) + content_sim * (1/10)

/-! ## Division-guarded ("checked") variants of the similarity computation

Each division the source performs is replaced by `checkedDiv`, which refuses a
zero divisor.  Agreement of the checked pipeline with the plain one states that
no division by zero ever happens during page-similarity computation. -/

def checkedDiv (a b : ℚ) : Option ℚ :=
  if b = 0 then none else some (a / b)

/-- `valScore` with its division checked; the source tests `max_val == 0`
before dividing (analyzer.py:704, 723). -/
def valScoreChecked (v1 v2 : ℕ) : Option ℚ :=
  if max v1 v2 = 0 then some 1
  else (checkedDiv |(v1 : ℚ) - (v2 : ℚ)| ((max v1 v2 : ℕ) : ℚ)).map fun q => 1 - q

/-- `calculate_dict_similarity` with every division checked. -/
def dictSimilarityChecked (d1 d2 : FreqDict) : Option ℚ :=
  if d1.keys = ∅ ∧ d2.keys = ∅ then some 1
  else if d1.keys = ∅ ∨ d2.keys = ∅ then some 0
  else
    match checkedDiv ((d1.keys ∩ d2.keys).card : ℚ) (((d1.keys ∪ d2.keys).card : ℕ) : ℚ) with
    | none => none
    | some key_similarity =>
      if d1.keys ∩ d2.keys = ∅ then some (key_similarity * (1/2))
      else if ∀ k ∈ d1.keys ∩ d2.keys, (valScoreChecked (d1.val k) (d2.val k)).isSome then
        match checkedDiv
          (Finset.sum (d1.keys ∩ d2.keys) fun k =>
            (valScoreChecked (d1.val k) (d2.val k)).getD 0)
          (((d1.keys ∩ d2.keys).card : ℕ) : ℚ) with
        | none => none
        | some value_similarity =>
          some (key_similarity * (3/10) + value_similarity * (7/10))
      else none

def contentPairs (c1 c2 : ContentStructure) : List (ℕ × ℕ) :=
  [ (c1.text_length, c2.text_length)
  , (c1.heading_count, c2.heading_count)
  , (c1.paragraph_count, c2.paragraph_count)
  , (c1.link_count, c2.link_count)
  , (c1.image_count, c2.image_count)
  , (c1.list_count, c2.list_count) ]

/-- `calculate_content_similarity` with every division checked. -/
def contentSimilarityChecked (c1 c2 : ContentStructure) : Option ℚ :=
  if ∀ p ∈ contentPairs c1 c2, (valScoreChecked p.1 p.2).isSome then
    let sims := (contentPairs c1 c2).map fun p => (valScoreChecked p.1 p.2).getD 0
    if sims = [] then some 0 else checkedDiv sims.sum (sims.length : ℚ)
  else none

/-- `compCountSim` with its division checked; the divisor is
`max(c1, c2, 1)`. -/
def compCountSimChecked (c1 c2 : ℕ) : Option ℚ :=
  (checkedDiv |(c1 : ℚ) - (c2 : ℚ)| ((max c1 (max c2 1) : ℕ) : ℚ)).map fun q => 1 - q

/-- `calculate_page_similarity` with every division checked. -/
def pageSimilarityChecked (f1 f2 : Features) : Option ℚ :=
  match dictSimilarityChecked f1.tag_structure f2.tag_structure with
  | none => none
  | some tag_sim =>
    match dictSimilarityChecked f1.class_patterns f2.class_patterns with
    | none => none
    | some class_sim =>
      let layout_sim : ℚ := if f1.layout_signature = f2.layout_signature then 1 else 0
      match compCountSimChecked f1.component_count f2.component_count with
      | none => none
      | some comp_sim =>
        match contentSimilarityChecked f1.content_structure f2.content_structure with
        | none => none
        | some content_sim =>
          some (tag_sim * (3/10) + class_sim * (1/4) + layout_sim * (1/5) +
            comp_sim * (3/20) + content_sim * (1/10))

/-! ## The dict-similarity contract written from the spec's words (§4.5)

"`dict-similarity(d1, d2)`: if both empty → 1.0; if exactly one empty → 0.0;
otherwise key-Jaccard = |keys1∩keys2| / |keys1∪keys2|; if no common keys,
return `key-Jaccard * 0.5`; else value-similarity = mean over common keys of
`1 − |v1−v2|/max(v1,v2)` (1.0 when both values are 0); result =
`key-Jaccard*0.3 + value-similarity*0.7`."  This definition follows the spec's
wording, for comparison with the source-translated
`calculate_dict_similarity`. -/
def dictSimilaritySpec (d1 d2 : FreqDict) : ℚ :=
  if d1.keys = ∅ ∧ d2.keys = ∅ then 1
  else if (d1.keys = ∅ ∧ d2.keys ≠ ∅) ∨ (d1.keys ≠ ∅ ∧ d2.keys = ∅) then 0
  else
    let keyJaccard : ℚ := ((d1.keys ∩ d2.keys).card : ℚ) / ((d1.keys ∪ d2.keys).card : ℚ)
    if d1.keys ∩ d2.keys = ∅ then keyJaccard * (1/2)
    else
      let valueSimilarity : ℚ :=
        (Finset.sum (d1.keys ∩ d2.keys) fun k => valScore (d1.val k) (d2.val k)) /
          ((d1.keys ∩ d2.keys).card : ℚ)
      keyJaccard * (3/10) + valueSimilarity * (7/10)

/-! ## The parsed-document model

HTML parsing is an external collaborator (BeautifulSoup); per the spec it is
"treated as an opaque parsing library that yields a traversable document tree
and text extraction".  Everything the analyzer asks of a parsed document is
captured by the flat list of its elements in document order, each with its tag
name, optional class-token list and optional id, together with the length of
the stripped extracted text (`len(soup.get_text(strip=True))`). -/

structure Element where
  tag : String
  classes : Option (List String)
  idAttr : Option String

structure Doc where
  elements : List Element
  textLen : ℕ

/-- `soup.find(t)` used as a presence test. -/
def hasTag (d : Doc) (t : String) : Bool :=
  d.elements.any fun e => e.tag = t

/-- Lower-cased character list of a string (the analyzer's patterns and class
names are ASCII, where Python `str.lower` and `Char.toLower` agree). -/
def lowerStr (s : String) : List Char :=
  s.data.map Char.toLower

/-- Substring test (Python `re.search` on a literal pattern, `x in s`). -/
def isSubstr (p : List Char) : List Char → Bool
  | [] => p.isEmpty
  | c :: cs => p.isPrefixOf (c :: cs) || isSubstr p cs

/-- `re.compile(r'container|row|col|grid', re.I).search(cls)`: one of the four
literals occurs in `cls`, case-insensitively. -/
def gridClassMatch (cls : String) : Bool :=
  isSubstr "container".data (lowerStr cls) || isSubstr "row".data (lowerStr cls) ||
    isSubstr "col".data (lowerStr cls) || isSubstr "grid".data (lowerStr cls)

/-- `soup.find_all(class_=re.compile(r'container|row|col|grid', re.I))` used as
a presence test: some element has a class token matching the pattern. -/
def hasGridClass (d : Doc) : Bool :=
  d.elements.any fun e =>
    match e.classes with
    | some cs => cs.any gridClassMatch
    | none => false

/-- `ContentAnalyzer._extract_layout_signature` (analyzer.py:601-626).
Note that both the footer check (line 615) and the form check (line 624)
append the letter `'F'`.  `''.join(sorted(signature_parts))` is the
insertion-sorted character list. -/
def extract_layout_signature (d : Doc) : List Char :=
  let signature_parts : List Char :=
    (if hasTag d "header" then ['H'] else []) ++
    (if hasTag d "nav" then ['N'] else []) ++
    (if hasTag d "main" then ['M'] else []) ++
    (if hasTag d "aside" then ['A'] else []) ++
    (if hasTag d "footer" then ['F'] else []) ++
    (if hasGridClass d then ['G'] else []) ++
    (if hasTag d "form" then ['F'] else [])
  signature_parts.insertionSort (· ≤ ·)

/-! ## Feature extraction (`_extract_structural_features`, analyzer.py:556-638) -/

/-- `re.sub(r'[0-9]+', 'N', s)`: collapse each maximal digit run to `'N'`. -/
def normDigitsAux : List Char → List Char
  | [] => []
  | c :: cs =>
    if c.isDigit then 'N' :: normDigitsAux (cs.dropWhile Char.isDigit)
    else c :: normDigitsAux cs
termination_by l => l.length
decreasing_by
  · simpa using Nat.lt_succ_of_le (List.dropWhile_sublist _).length_le
  · simp

def normalizeDigits (s : String) : String :=
  ⟨normDigitsAux s.data⟩

/-- `ContentAnalyzer._extract_tag_structure` (analyzer.py:571-576): tag name
frequency counter. -/
def extract_tag_structure (d : Doc) : FreqDict :=
  let tags := d.elements.map Element.tag
  { keys := tags.toFinset, val := fun t => tags.count t }

/-- `ContentAnalyzer._extract_class_patterns` (analyzer.py:578-589): frequency
counter of digit-normalized class tokens over elements carrying a class
attribute. -/
def extract_class_patterns (d : Doc) : FreqDict :=
  let toks := d.elements.flatMap fun e =>
    match e.classes with
    | some cs => cs.map normalizeDigits
    | none => []
  { keys := toks.toFinset, val := fun t => toks.count t }

/-- `ContentAnalyzer._extract_id_patterns` (analyzer.py:591-599). -/
def extract_id_patterns (d : Doc) : FreqDict :=
  let ids := (d.elements.filterMap Element.idAttr).map normalizeDigits
  { keys := ids.toFinset, val := fun t => ids.count t }

/-- `ContentAnalyzer._extract_content_structure` (analyzer.py:628-638). -/
def extract_content_structure (d : Doc) : ContentStructure :=
  { text_length := d.textLen
  , heading_count :=
      (d.elements.filter fun e => e.tag ∈ ["h1", "h2", "h3", "h4", "h5", "h6"]).length
  , paragraph_count := (d.elements.filter fun e => e.tag = "p").length
  , link_count := (d.elements.filter fun e => e.tag = "a").length
  , image_count := (d.elements.filter fun e => e.tag = "img").length
  , list_count := (d.elements.filter fun e => e.tag ∈ ["ul", "ol"]).length }

/-- A page as consumed by `cluster_pages_by_structure`: its URL, title, the
page type assigned during analysis, its parsed document and the length of its
`components` list. -/
structure PageA where
  url : String
  title : String
  page_type : Option String
  doc : Doc
  componentCount : ℕ

/-- `ContentAnalyzer._extract_structural_features` (analyzer.py:556-569). -/
def extract_structural_features (p : PageA) : Features :=
  { tag_structure := extract_tag_structure p.doc
  , class_patterns := extract_class_patterns p.doc
  , id_patterns := extract_id_patterns p.doc
  , component_count := p.componentCount
  , layout_signature := extract_layout_signature p.doc
  , content_structure := extract_content_structure p.doc }

def dummyFeatures : Features :=
  { tag_structure := ⟨∅, fun _ => 0⟩
  , class_patterns := ⟨∅, fun _ => 0⟩
  , id_patterns := ⟨∅, fun _ => 0⟩
  , component_count := 0
  , layout_signature := []
  , content_structure := ⟨0, 0, 0, 0, 0, 0⟩ }

/-- `ContentAnalyzer._calculate_similarity_matrix` (analyzer.py:640-654): the
upper triangle is computed, mirrored to the lower one, and the diagonal is
then forced to `1.0`. -/
def calculate_similarity_matrix (fs : List Features) : List (List ℚ) :=
  (List.range fs.length).map fun i =>
    (List.range fs.length).map fun j =>
      if i = j then 1
      else if i < j then
        calculate_page_similarity (fs.getD i dummyFeatures) (fs.getD j dummyFeatures)
      else
        calculate_page_similarity (fs.getD j dummyFeatures) (fs.getD i dummyFeatures)

/-! ## Clustering front end (`cluster_pages_by_structure`, analyzer.py:514-554)

The DBSCAN run itself is scikit-learn, an external collaborator; it is a
parameter mapping the precomputed distance matrix to one integer label per
page (noise = negative). -/

structure ClusterPageEntry where
  url : String
  title : String
  page_type : String
  similarity_score : ℚ

structure ClusterRecommendation where
  cluster : String
  page_count : ℕ
  average_similarity : ℚ
  dominant_page_type : String
  recommendation : String
  template_suggestions : List String

/-- The dict returned by `cluster_pages_by_structure`.  In the fewer-than-two-
pages branch only the first three entries are present, so the last three are
optional. -/
structure ClusterResult where
  clusters : List (String × List ClusterPageEntry)
  similarity_matrix : List (List ℚ)
  recommendations : List ClusterRecommendation
  similarity_threshold : Option ℚ
  total_pages : Option ℕ
  cluster_count : Option ℕ

def emptyClusterResult : ClusterResult :=
  { clusters := [], similarity_matrix := [], recommendations := []
  , similarity_threshold := none, total_pages := none, cluster_count := none }

/-- `np.mean` over a list of rationals (callers guard non-emptiness). -/
def listMean (l : List ℚ) : ℚ := l.sum / (l.length : ℚ)

/-- Python `round(x, 3)` (half-to-even), idealized over ℚ. -/
def pyRound3 (x : ℚ) : ℚ :=
  let y := x * 1000
  let f : ℤ := ⌊y⌋
  let r := y - (f : ℚ)
  let n : ℤ :=
    if r < 1/2 then f else if 1/2 < r then f + 1 else if Even f then f else f + 1
  (n : ℚ) / 1000

/-- `Counter(...).most_common(1)[0][0]` over a list: highest count wins, ties
broken by first insertion; `'unknown'` for an empty counter. -/
def mostCommon (l : List String) : String :=
  let distinct := l.foldl (fun acc x => if x ∈ acc then acc else acc ++ [x]) []
  match distinct with
  | [] => "unknown"
  | h :: t => t.foldl (fun best x => if l.count best < l.count x then x else best) h

/-- `defaultdict(list)` grouping of `cluster_pages_by_structure`
(analyzer.py:534-542): buckets appear in first-occurrence order of their
label. -/
def groupClusters (entries : List (ℤ × ClusterPageEntry)) :
    List (String × List ClusterPageEntry) :=
  entries.foldl
    (fun acc (p : ℤ × ClusterPageEntry) =>
      if p.1 < 0 then acc
      else
        let key := "cluster_" ++ toString p.1
        if acc.any fun b => b.1 = key then
          acc.map fun b => if b.1 = key then (b.1, b.2 ++ [p.2]) else b
        else acc ++ [(key, [p.2])])
    []

def matrixEntry (m : List (List ℚ)) (i j : ℕ) : ℚ :=
  (m.getD i []).getD j 0

/-- `ContentAnalyzer._generate_template_suggestions` (analyzer.py:770-799). -/
def generate_template_suggestions (pageType : String) : List String :=
  if pageType = "homepage" then
    [ "Use a hero section with dynamic content"
    , "Implement a grid-based content layout"
    , "Add navigation and footer components" ]
  else if pageType = "blog_post" then
    [ "Create a content template with title, author, and body"
    , "Add related posts section"
    , "Include social sharing components" ]
  else if pageType = "product_page" then
    [ "Use a product image gallery component"
    , "Add product details and specifications"
    , "Include related products section" ]
  else
    [ "Create a flexible content template"
    , "Add navigation and breadcrumb components"
    , "Include footer and social media links" ]

/-- `ContentAnalyzer._generate_clustering_recommendations`
(analyzer.py:734-768). -/
def generate_clustering_recommendations
    (clusters : List (String × List ClusterPageEntry))
    (m : List (List ℚ)) (pages : List PageA) : List ClusterRecommendation :=
  clusters.flatMap fun cl =>
    if 1 < cl.2.length then
      let cluster_urls := cl.2.map ClusterPageEntry.url
      let cluster_indices :=
        ((List.range pages.length).filter fun i =>
          (pages.getD i ⟨"", "", none, ⟨[], 0⟩, 0⟩).url ∈ cluster_urls)
      if 1 < cluster_indices.length then
        let cluster_similarities := cluster_indices.flatMap fun i =>
          (cluster_indices.filter fun j => j ≠ i).map fun j => matrixEntry m i j
        let avg_similarity :=
          if cluster_similarities = [] then 0 else listMean cluster_similarities
        let dominant_type := mostCommon (cl.2.map ClusterPageEntry.page_type)
        [ { cluster := cl.1
          , page_count := cl.2.length
          , average_similarity := pyRound3 avg_similarity
          , dominant_page_type := dominant_type
          , recommendation := "Create a single template for " ++ dominant_type ++
              " pages with " ++ toString cl.2.length ++ " variations"
          , template_suggestions := generate_template_suggestions dominant_type } ]
      else []
    else []

/-- `ContentAnalyzer.cluster_pages_by_structure` (analyzer.py:514-554),
parameterized by the external DBSCAN run (`dbscan` maps the precomputed
distance matrix to per-page labels; noise is negative). -/
def cluster_pages_by_structure (dbscan : List (List ℚ) → List ℤ)
    (pages : List PageA) (similarity_threshold : ℚ) : ClusterResult :=
  if pages.length < 2 then emptyClusterResult
  else
    let page_features := pages.map extract_structural_features
    let similarity_matrix := calculate_similarity_matrix page_features
    let distance_matrix := similarity_matrix.map fun row => row.map fun x => 1 - x
    let cluster_labels := dbscan distance_matrix
    let entries := (List.range pages.length).map fun i =>
      let p := pages.getD i ⟨"", "", none, ⟨[], 0⟩, 0⟩
      (cluster_labels.getD i (-1),
        { url := p.url
        , title := p.title
        , page_type := p.page_type.getD "unknown"
        , similarity_score := listMean (similarity_matrix.getD i [])
        : ClusterPageEntry })
    let clusters := groupClusters entries
    { clusters := clusters
    , similarity_matrix := similarity_matrix
    , recommendations := generate_clustering_recommendations clusters similarity_matrix pages
    , similarity_threshold := some similarity_threshold
    , total_pages := some pages.length
    , cluster_count := some clusters.length }

/-! ## Crawler model (`recrafter/crawler.py`)

`CrawlerEngine._crawl_page` is embedded as a state machine with explicit state
passing.  The network and HTML link extraction are the opaque collaborators:
a `Web` maps a URL to `none` (the request raises; caught in `_download_page`)
or to a response carrying its HTTP status, raw content-type header and the
internal/external-flagged links its body yields.

The whole crawl runs inside the single root asyncio task — `_crawl_page`
awaits each recursion directly and no task is ever spawned — so execution is
sequential, and an `asyncio.Semaphore.acquire` that finds the counter at zero
can never be released by anyone: it is a deadlock, recorded in the state by
the `deadlocked` flag, after which nothing further happens (the real run
hangs). -/

structure LinkC where
  url : String
  is_internal : Bool
deriving DecidableEq

structure FetchResponse where
  status : ℕ
  contentType : String
  links : List LinkC
deriving DecidableEq

def Web : Type := String → Option FetchResponse

structure PageC where
  url : String
  depth : ℕ
  links : List LinkC
deriving DecidableEq

structure CrawlerConfigC where
  max_depth : ℕ
  max_concurrent : ℕ

inductive FetchEv where
  | start (url : String)
  | done (url : String)
deriving DecidableEq

structure CrawlSt where
  visited : List String
  pages : List PageC
  errors : List String
  trace : List (String × ℕ)
  events : List FetchEv
  sem : ℕ
  deadlocked : Bool
deriving DecidableEq

/-- `content_type = response.headers.get('content-type', '').split(';')[0]`. -/
def headerMainType (ct : String) : List Char :=
  ct.data.takeWhile fun c => c ≠ ';'

/-- `CrawlerEngine._download_page` (crawler.py:145-186): `None` on a raised
request, a non-200 status, or a non-HTML content type; otherwise the built
page.  The one `session.get` it performs per call is recorded by the caller
in the fetch trace. -/
def download_page (web : Web) (url : String) (depth : ℕ) : Option PageC :=
  match web url with
  | none => none
  | some r =>
    if r.status ≠ 200 then none
    else if ¬ ("text/html".data.isPrefixOf (headerMainType r.contentType)) then none
    else some { url := url, depth := depth, links := r.links }

mutual

/-- `CrawlerEngine._crawl_page` (crawler.py:82-143).  Steps, in source order:
the depth guard, the visited-set guard, recording the URL as visited, the
semaphore acquisition (deadlock when the counter is zero: the single task
blocks forever), the download (one fetch event), sitemap insertion, the
recursion into internal links when `depth < max_depth`, and the semaphore
release at the end of the `async with` block (which never happens if a
nested call deadlocked, since the task never resumes).  Storage and the
analyzer are non-failing collaborators, so the `except` branch that appends
to `result.errors` is unreachable. -/
def crawl_page (cfg : CrawlerConfigC) (web : Web) (url : String) (depth : ℕ)
    (st : CrawlSt) : CrawlSt :=
  if st.deadlocked then st
  else if cfg.max_depth < depth then st
  else if url ∈ st.visited then st
  else
    let st1 := { st with visited := st.visited ++ [url] }
    if st1.sem = 0 then { st1 with deadlocked := true }
    else
      let st2 := { st1 with
        sem := st1.sem - 1
        trace := st1.trace ++ [(url, depth)]
        events := st1.events ++ [FetchEv.start url, FetchEv.done url] }
      match download_page web url depth with
      | none => { st2 with sem := st2.sem + 1 }
      | some page =>
        let st3 := { st2 with pages := st2.pages ++ [page] }
        let st4 :=
          if depth < cfg.max_depth then
            crawl_links cfg web (page.links.filter LinkC.is_internal) (depth + 1) st3
          else st3
        if st4.deadlocked then st4 else { st4 with sem := st4.sem + 1 }
termination_by (cfg.max_depth + 1 - depth, 0)
decreasing_by
  apply Prod.Lex.left
  omega

/-- The `for link in internal_links: await self._crawl_page(...)` loop
(crawler.py:134-135): each child is awaited to completion before the next
sibling starts. -/
def crawl_links (cfg : CrawlerConfigC) (web : Web) (links : List LinkC) (depth : ℕ)
    (st : CrawlSt) : CrawlSt :=
  match links with
  | [] => st
  | l :: ls => crawl_links cfg web ls depth (crawl_page cfg web l.url depth st)
termination_by (cfg.max_depth + 1 - depth, links.length + 1)
decreasing_by
  all_goals apply Prod.Lex.right' <;> simp

end

structure CrawlResultC where
  pages : List PageC
  errors : List String
  trace : List (String × ℕ)
  events : List FetchEv
  deadlocked : Bool
deriving DecidableEq

/-- `CrawlerEngine.crawl` (crawler.py:55-80): fresh state (empty visited set,
semaphore counter at `max_concurrent`), one root `_crawl_page` call at depth
0, then finalization. -/
def crawl (cfg : CrawlerConfigC) (web : Web) (start_url : String) : CrawlResultC :=
  let st := crawl_page cfg web start_url 0
    { visited := [], pages := [], errors := [], trace := [], events := []
    , sem := cfg.max_concurrent, deadlocked := false }
  { pages := st.pages, errors := st.errors, trace := st.trace
  , events := st.events, deadlocked := st.deadlocked }

/-! ### Fetch-concurrency accounting -/

/-- Running maximum of simultaneously in-flight fetches along an event list. -/
def inflightAux : List FetchEv → ℕ → ℕ → ℕ
  | [], _, m => m
  | FetchEv.start _ :: rest, cur, m => inflightAux rest (cur + 1) (max m (cur + 1))
  | FetchEv.done _ :: rest, cur, m => inflightAux rest (cur - 1) m

def inflightMax (evs : List FetchEv) : ℕ :=
  inflightAux evs 0 0

/-- The event list of a crawl in which every fetch completes before anything
else happens: start/done pairs in sequence. -/
def pairedEvents : List String → List FetchEv
  | [] => []
  | u :: us => FetchEv.start u :: FetchEv.done u :: pairedEvents us

/-! ### Concrete scenario inputs -/

/-- Scenario C (spec §8): two pages linking to each other in a cycle. -/
def webCycle : Web := fun u =>
  if u = "A" then some ⟨200, "text/html", [⟨"B", true⟩]⟩
  else if u = "B" then some ⟨200, "text/html", [⟨"A", true⟩]⟩
  else none

/-- Scenario B (spec §8): chain A → B → C → D crawled with max depth 2. -/
def webChain : Web := fun u =>
  if u = "A" then some ⟨200, "text/html", [⟨"B", true⟩]⟩
  else if u = "B" then some ⟨200, "text/html", [⟨"C", true⟩]⟩
  else if u = "C" then some ⟨200, "text/html", [⟨"D", true⟩]⟩
  else if u = "D" then some ⟨200, "text/html", []⟩
  else none

/-- Scenario D (spec §8): the root links to a page answering HTTP 404 and to a
healthy sibling. -/
def webFail : Web := fun u =>
  if u = "A" then some ⟨200, "text/html", [⟨"B", true⟩, ⟨"C", true⟩]⟩
  else if u = "B" then some ⟨404, "text/html", []⟩
  else if u = "C" then some ⟨200, "text/html", []⟩
  else none

/-- Two healthy siblings under the root: the claimed fan-out shape. -/
def webSiblings : Web := fun u =>
  if u = "A" then some ⟨200, "text/html", [⟨"B", true⟩, ⟨"C", true⟩]⟩
  else if u = "B" then some ⟨200, "text/html", []⟩
  else if u = "C" then some ⟨200, "text/html", []⟩
  else none

/-- The inductive invariant of the crawl state: every page and fetch belongs
to a visited URL, no URL is fetched or inserted twice, depths respect the
configured maximum, every page in the sitemap is the successful download of
its own URL at its recorded depth, and the event list is the sequential
pairing of the fetch trace. -/
def CrawlInv (cfg : CrawlerConfigC) (web : Web) (st : CrawlSt) : Prop :=
  (∀ u ∈ st.pages.map PageC.url, u ∈ st.visited) ∧
  (st.pages.map PageC.url).Nodup ∧
  (st.trace.map Prod.fst).Nodup ∧
  (∀ u ∈ st.trace.map Prod.fst, u ∈ st.visited) ∧
  (∀ p ∈ st.pages, p.depth ≤ cfg.max_depth) ∧
  (∀ e ∈ st.trace, e.2 ≤ cfg.max_depth) ∧
  (∀ p ∈ st.pages, download_page web p.url p.depth = some p) ∧
  st.events = pairedEvents (st.trace.map Prod.fst)

/-- A URL whose fetch can never yield a page: the request raises, or answers
with a non-200 status or a non-HTML content type (`_download_page` returns
`None` in each case). -/
def fetchFails (web : Web) (u : String) : Prop :=
  ∀ d : ℕ, download_page web u d = none

/-! ## URL canonicalization (`recrafter/utils.py: normalize_url`)

`normalize_url` delegates to CPython 3.11's `urllib.parse`; the parts it can
reach (`urlparse`, `urlsplit`, `urljoin`, `urlunparse`, `urlunsplit` with the
default `allow_fragments=True`) are embedded here over `List Char`.
Deviations from CPython, both confined to bracketed (IPv6/IPvFuture) hosts
and exotic non-ASCII netlocs:
* `_check_bracketed_host` validates a bracketed host against `ipaddress`; that
  external validator is the parameter `hostValid`.
* `_checknetloc` raises only for a non-ASCII netloc whose NFKC normalization
  introduces a URL delimiter; NFKC normalization is modelled as the identity,
  so the check never raises here. -/

/-- `_WHATWG_C0_CONTROL_OR_SPACE` membership: code points 0x00–0x20. -/
def isC0OrSpace (c : Char) : Bool :=
  c.toNat ≤ 32

/-- `_UNSAFE_URL_BYTES_TO_REMOVE` membership: tab, CR, LF. -/
def isUnsafeByte (c : Char) : Bool :=
  c == '\t' || c == '\r' || c == '\n'

/-- The `lstrip` + unsafe-byte removal applied to the url by `urlsplit`. -/
def cleanUrl (l : List Char) : List Char :=
  (l.dropWhile isC0OrSpace).filter fun c => !isUnsafeByte c

/-- The `strip` + unsafe-byte removal applied to the default scheme by
`urlsplit`. -/
def cleanDefaultScheme (l : List Char) : List Char :=
  (((l.dropWhile isC0OrSpace).reverse.dropWhile isC0OrSpace).reverse).filter
    fun c => !isUnsafeByte c

/-- `scheme_chars`: ASCII letters, ASCII digits, `+`, `-`, `.`. -/
def isSchemeChar (c : Char) : Bool :=
  c.isAlpha || c.isDigit || c == '+' || c == '-' || c == '.'

def uses_relative : List (List Char) :=
  ["", "ftp", "http", "gopher", "nntp", "imap", "wais", "file", "https", "shttp",
    "mms", "prospero", "rtsp", "rtspu", "sftp", "svn", "svn+ssh", "ws", "wss"].map
    String.data

def uses_netloc : List (List Char) :=
  ["", "ftp", "http", "gopher", "nntp", "telnet", "imap", "wais", "file", "mms",
    "https", "shttp", "snews", "prospero", "rtsp", "rtspu", "rsync", "svn",
    "svn+ssh", "sftp", "nfs", "git", "git+ssh", "ws", "wss"].map String.data

def uses_params : List (List Char) :=
  ["", "ftp", "hdl", "prospero", "http", "imap", "https", "shttp", "rtsp",
    "rtspu", "sip", "sips", "mms", "sftp", "tel"].map String.data

def isNetlocDelim (c : Char) : Bool :=
  c == '/' || c == '?' || c == '#'

/-- `url[0].isascii() and url[0].isalpha()`. -/
def headIsAsciiAlpha (l : List Char) : Bool :=
  match l.head? with
  | some c => c.toNat ≤ 127 && c.isAlpha
  | none => false

/-- `str.split(c, 1)` when `c` occurs: part before the first `c`, part after. -/
def splitAtFirst (c : Char) (l : List Char) : List Char × List Char :=
  (l.takeWhile fun x => x ≠ c, (l.dropWhile fun x => x ≠ c).drop 1)

/-- `netloc.partition('[')[2].partition(']')[0]`. -/
def bracketedHost (netloc : List Char) : List Char :=
  (((netloc.dropWhile fun x => x ≠ '[').drop 1).takeWhile fun x => x ≠ ']')

structure SplitResult where
  scheme : List Char
  netloc : List Char
  path : List Char
  query : List Char
  fragment : List Char
deriving DecidableEq

/-- `urllib.parse.urlsplit(url, scheme, allow_fragments=True)` (CPython
3.11.6), with errors (`ValueError`) as `Except.error`. -/
def urlsplitM (hostValid : List Char → Bool) (url0 scheme0 : List Char) :
    Except String SplitResult :=
  let url1 := cleanUrl url0
  let dscheme := cleanDefaultScheme scheme0
  let p :=
    match url1.findIdx? fun x => x == ':' with
    | some i =>
      if 0 < i ∧ headIsAsciiAlpha url1 ∧ (url1.take i).all isSchemeChar then
        ((url1.take i).map Char.toLower, url1.drop (i + 1))
      else (dscheme, url1)
    | none => (dscheme, url1)
  let scheme := p.1
  let url2 := p.2
  if url2.take 2 = "//".data then
    let netloc := (url2.drop 2).takeWhile fun c => !isNetlocDelim c
    let url3 := (url2.drop 2).dropWhile fun c => !isNetlocDelim c
    if ('[' ∈ netloc ∧ ']' ∉ netloc) ∨ (']' ∈ netloc ∧ '[' ∉ netloc) then
      Except.error "Invalid IPv6 URL"
    else if '[' ∈ netloc ∧ ']' ∈ netloc ∧ ¬ hostValid (bracketedHost netloc) then
      Except.error "invalid bracketed host"
    else
      let q1 := if '#' ∈ url3 then splitAtFirst '#' url3 else (url3, [])
      let q2 := if '?' ∈ q1.1 then splitAtFirst '?' q1.1 else (q1.1, [])
      Except.ok ⟨scheme, netloc, q2.1, q2.2, q1.2⟩
  else
    let q1 := if '#' ∈ url2 then splitAtFirst '#' url2 else (url2, [])
    let q2 := if '?' ∈ q1.1 then splitAtFirst '?' q1.1 else (q1.1, [])
    Except.ok ⟨scheme, [], q2.1, q2.2, q1.2⟩

/-- The tail of `urlsplit` once the scheme is extracted and a netloc is being
split off: the bracket validation, then the fragment and query splits (named
so the evaluation lemmas can state partial computations of `urlsplitM`). -/
def urlsplitM_after_netloc (hv : List Char → Bool) (scheme netloc url3 : List Char) :
    Except String SplitResult :=
  if ('[' ∈ netloc ∧ ']' ∉ netloc) ∨ (']' ∈ netloc ∧ '[' ∉ netloc) then
    Except.error "Invalid IPv6 URL"
  else if '[' ∈ netloc ∧ ']' ∈ netloc ∧ ¬ hv (bracketedHost netloc) then
    Except.error "invalid bracketed host"
  else
    let q1 := if '#' ∈ url3 then splitAtFirst '#' url3 else (url3, [])
    let q2 := if '?' ∈ q1.1 then splitAtFirst '?' q1.1 else (q1.1, [])
    Except.ok ⟨scheme, netloc, q2.1, q2.2, q1.2⟩

structure ParseResult where
  scheme : List Char
  netloc : List Char
  path : List Char
  params : List Char
  query : List Char
  fragment : List Char
deriving DecidableEq

/-- `_splitparams` (only called when `';' ∈ url`). -/
def pySplitparams (url : List Char) : List Char × List Char :=
  if '/' ∈ url then
    let start := url.length - 1 - (url.reverse.findIdx fun x => x == '/')
    match (url.drop start).findIdx? fun x => x == ';' with
    | none => (url, [])
    | some k => (url.take (start + k), url.drop (start + k + 1))
  else
    match url.findIdx? fun x => x == ';' with
    | none => (url, [])
    | some i => (url.take i, url.drop (i + 1))

/-- `urllib.parse.urlparse(url, scheme, allow_fragments=True)`. -/
def urlparseM (hostValid : List Char → Bool) (url scheme0 : List Char) :
    Except String ParseResult :=
  match urlsplitM hostValid url scheme0 with
  | Except.error e => Except.error e
  | Except.ok sp =>
    if sp.scheme ∈ uses_params ∧ ';' ∈ sp.path then
      let q := pySplitparams sp.path
      Except.ok ⟨sp.scheme, sp.netloc, q.1, q.2, sp.query, sp.fragment⟩
    else
      Except.ok ⟨sp.scheme, sp.netloc, sp.path, [], sp.query, sp.fragment⟩

/-- `urllib.parse.urlunsplit` (CPython 3.11.6). -/
def urlunsplitM (scheme netloc path query fragment : List Char) : List Char :=
  let url :=
    if netloc ≠ [] ∨ (scheme ≠ [] ∧ scheme ∈ uses_netloc ∧ path.take 2 ≠ "//".data) then
      let url1 := if path ≠ [] ∧ path.take 1 ≠ "/".data then '/' :: path else path
      '/' :: '/' :: (netloc ++ url1)
    else path
  let url2 := if scheme ≠ [] then scheme ++ ':' :: url else url
  let url3 := if query ≠ [] then url2 ++ '?' :: query else url2
  if fragment ≠ [] then url3 ++ '#' :: fragment else url3

/-- `urllib.parse.urlunparse`. -/
def urlunparseM (scheme netloc path params query fragment : List Char) : List Char :=
  let url := if params ≠ [] then path ++ ';' :: params else path
  urlunsplitM scheme netloc url query fragment

/-- `segments[1:-1] = filter(None, segments[1:-1])`: drop empty strings from
everything but the first and last element. -/
def filterMiddle (l : List (List Char)) : List (List Char) :=
  match l with
  | [] => []
  | [a] => [a]
  | a :: rest =>
    a :: ((rest.dropLast.filter fun s => s ≠ []) ++ [rest.getLastD []])

/-- The `for seg in segments` resolution loop of `urljoin`: `..` pops
(ignoring pops of an empty stack), `.` is skipped, anything else pushed. -/
def resolveSegments (segments : List (List Char)) : List (List Char) :=
  segments.foldl
    (fun acc seg =>
      if seg = "..".data then acc.dropLast
      else if seg = ".".data then acc
      else acc ++ [seg])
    []

/-- The body of `urljoin` after both parses succeed (factored out of
`urljoinM` so the branch analysis can name it; a verbatim continuation of the
CPython source). -/
def urljoinResolve (b u : ParseResult) (url : List Char) : Except String (List Char) :=
  if u.scheme ≠ b.scheme ∨ u.scheme ∉ uses_relative then Except.ok url
  else if u.scheme ∈ uses_netloc ∧ u.netloc ≠ [] then
    Except.ok (urlunparseM u.scheme u.netloc u.path u.params u.query u.fragment)
  else
    let netloc := if u.scheme ∈ uses_netloc then b.netloc else u.netloc
    if u.path = [] ∧ u.params = [] then
      let query := if u.query = [] then b.query else u.query
      Except.ok (urlunparseM u.scheme netloc b.path b.params query u.fragment)
    else
      let base_parts0 := b.path.splitOn '/'
      let base_parts :=
        if base_parts0.getLastD [] ≠ [] then base_parts0.dropLast else base_parts0
      let segments :=
        if u.path.take 1 = "/".data then u.path.splitOn '/'
        else filterMiddle (base_parts ++ u.path.splitOn '/')
      let rp0 := resolveSegments segments
      let rp :=
        if segments.getLastD [] = ".".data ∨ segments.getLastD [] = "..".data then
          rp0 ++ [[]]
        else rp0
      let joined := List.intercalate "/".data rp
      let fpath := if joined = [] then "/".data else joined
      Except.ok (urlunparseM u.scheme netloc fpath u.params u.query u.fragment)

/-- `urllib.parse.urljoin(base, url)` (CPython 3.11.6,
`allow_fragments=True`). -/
def urljoinM (hostValid : List Char → Bool) (base url : List Char) :
    Except String (List Char) :=
  if base = [] then Except.ok url
  else if url = [] then Except.ok base
  else
    match urlparseM hostValid base [] with
    | Except.error e => Except.error e
    | Except.ok b =>
    match urlparseM hostValid url b.scheme with
    | Except.error e => Except.error e
    | Except.ok u => urljoinResolve b u url

/-- `normalize_url` (utils.py:39-57). -/
def normalize_url (hostValid : List Char → Bool) (url base_url : List Char) :
    Except String (List Char) :=
  if url = [] then Except.ok base_url
  else if url.take 1 = "#".data then Except.ok base_url
  else if url.take 2 = "//".data then
    match urlparseM hostValid base_url [] with
    | Except.error e => Except.error e
    | Except.ok pb => Except.ok (pb.scheme ++ ':' :: url)
  else if ¬ ("http://".data.isPrefixOf url ∨ "https://".data.isPrefixOf url) then
    urljoinM hostValid base_url url
  else Except.ok url

/-- The trivial external bracketed-host validator used for concrete inputs
(none of them contains a bracketed host). -/
def hvTrue : List Char → Bool := fun _ => true

/-! # Theorems -/

/-! ## Per-key value score -/

theorem valScore_nonneg (a b : ℕ) : 0 ≤ valScore a b := by
  unfold valScore
  split
  · norm_num
  · rename_i h
    have hm : (0 : ℚ) < ((max a b : ℕ) : ℚ) := by
      exact_mod_cast Nat.pos_of_ne_zero h
    have h1 : ((a : ℕ) : ℚ) ≤ ((max a b : ℕ) : ℚ) := by
      exact_mod_cast le_max_left a b
    have h2 : ((b : ℕ) : ℚ) ≤ ((max a b : ℕ) : ℚ) := by
      exact_mod_cast le_max_right a b
    have h0a : (0 : ℚ) ≤ (a : ℚ) := Nat.cast_nonneg a
    have h0b : (0 : ℚ) ≤ (b : ℚ) := Nat.cast_nonneg b
    have habs : |(a : ℚ) - (b : ℚ)| ≤ ((max a b : ℕ) : ℚ) :=
      abs_le.mpr ⟨by linarith, by linarith⟩
    have := (div_le_one hm).mpr habs
    linarith

theorem valScore_le_one (a b : ℕ) : valScore a b ≤ 1 := by
  unfold valScore
  split
  · norm_num
  · rename_i h
    have hm : (0 : ℚ) ≤ ((max a b : ℕ) : ℚ) := Nat.cast_nonneg _
    have := div_nonneg (abs_nonneg ((a : ℚ) - (b : ℚ))) hm
    linarith

theorem valScore_comm (a b : ℕ) : valScore a b = valScore b a := by
  unfold valScore
  rw [Nat.max_comm b a, abs_sub_comm ((b : ℚ)) ((a : ℚ))]

theorem valScore_self (a : ℕ) : valScore a a = 1 := by
  unfold valScore
  split
  · rfl
  · simp

/-! ## Dict similarity -/

theorem dict_sim_comm (d1 d2 : FreqDict) :
    calculate_dict_similarity d1 d2 = calculate_dict_similarity d2 d1 := by
  by_cases h1 : d1.keys = ∅ <;> by_cases h2 : d2.keys = ∅ <;>
    simp only [calculate_dict_similarity, h1, h2] <;> simp_all
  rw [Finset.inter_comm d2.keys d1.keys, Finset.union_comm d2.keys d1.keys]
  have hs : (Finset.sum (d1.keys ∩ d2.keys) fun k => valScore (d2.val k) (d1.val k)) =
      Finset.sum (d1.keys ∩ d2.keys) fun k => valScore (d1.val k) (d2.val k) :=
    Finset.sum_congr rfl fun k _ => valScore_comm _ _
  rw [hs]

theorem dict_sim_self (d : FreqDict) : calculate_dict_similarity d d = 1 := by
  by_cases h : d.keys = ∅
  · simp [calculate_dict_similarity, h]
  · have hne : d.keys.Nonempty := Finset.nonempty_iff_ne_empty.mpr h
    have hc : ((d.keys.card : ℕ) : ℚ) ≠ 0 := by
      exact_mod_cast (Finset.card_pos.mpr hne).ne'
    simp only [calculate_dict_similarity, h, Finset.inter_self, Finset.union_self,
      and_self, or_self, if_false, if_neg h]
    have hsum : (Finset.sum d.keys fun k => valScore (d.val k) (d.val k)) =
        (d.keys.card : ℚ) := by
      rw [Finset.sum_congr rfl fun k _ => valScore_self (d.val k)]
      simp
    rw [hsum, div_self hc]
    norm_num

theorem dict_sim_nonneg (d1 d2 : FreqDict) : 0 ≤ calculate_dict_similarity d1 d2 := by
  simp only [calculate_dict_similarity]
  split
  · norm_num
  · split
    · norm_num
    · have hks : (0 : ℚ) ≤ ((d1.keys ∩ d2.keys).card : ℚ) / (((d1.keys ∪ d2.keys).card : ℕ) : ℚ) :=
        div_nonneg (Nat.cast_nonneg _) (Nat.cast_nonneg _)
      split
      · positivity
      · have hvs : (0 : ℚ) ≤
            (Finset.sum (d1.keys ∩ d2.keys) fun k => valScore (d1.val k) (d2.val k)) /
              (((d1.keys ∩ d2.keys).card : ℕ) : ℚ) :=
          div_nonneg (Finset.sum_nonneg fun k _ => valScore_nonneg _ _) (Nat.cast_nonneg _)
        positivity

theorem dict_sim_le_one (d1 d2 : FreqDict) : calculate_dict_similarity d1 d2 ≤ 1 := by
  simp only [calculate_dict_similarity]
  split
  · norm_num
  · rename_i hboth
    split
    · norm_num
    · rename_i hone
      have h1 : d1.keys ≠ ∅ := fun h => hone (Or.inl h)
      have hne : (d1.keys ∪ d2.keys).Nonempty :=
        Finset.Nonempty.mono Finset.subset_union_left
          (Finset.nonempty_iff_ne_empty.mpr h1)
      have hupos : (0 : ℚ) < (((d1.keys ∪ d2.keys).card : ℕ) : ℚ) := by
        exact_mod_cast Finset.card_pos.mpr hne
      have hks0 : (0 : ℚ) ≤ ((d1.keys ∩ d2.keys).card : ℚ) / (((d1.keys ∪ d2.keys).card : ℕ) : ℚ) :=
        div_nonneg (Nat.cast_nonneg _) (Nat.cast_nonneg _)
      have hks1 : ((d1.keys ∩ d2.keys).card : ℚ) / (((d1.keys ∪ d2.keys).card : ℕ) : ℚ) ≤ 1 := by
        apply (div_le_one hupos).mpr
        exact_mod_cast Finset.card_le_card Finset.inter_subset_union
      split
      · linarith
      · rename_i hcom
        have hcne : (d1.keys ∩ d2.keys).Nonempty := Finset.nonempty_iff_ne_empty.mpr hcom
        have hcpos : (0 : ℚ) < (((d1.keys ∩ d2.keys).card : ℕ) : ℚ) := by
          exact_mod_cast Finset.card_pos.mpr hcne
        have hsum : (Finset.sum (d1.keys ∩ d2.keys) fun k => valScore (d1.val k) (d2.val k)) ≤
            (((d1.keys ∩ d2.keys).card : ℕ) : ℚ) := by
          calc (Finset.sum (d1.keys ∩ d2.keys) fun k => valScore (d1.val k) (d2.val k)) ≤
              (d1.keys ∩ d2.keys).card • (1 : ℚ) :=
                Finset.sum_le_card_nsmul _ _ _ fun k _ => valScore_le_one _ _
            _ = (((d1.keys ∩ d2.keys).card : ℕ) : ℚ) := by simp
        have hvs0 : (0 : ℚ) ≤
            (Finset.sum (d1.keys ∩ d2.keys) fun k => valScore (d1.val k) (d2.val k)) /
              (((d1.keys ∩ d2.keys).card : ℕ) : ℚ) :=
          div_nonneg (Finset.sum_nonneg fun k _ => valScore_nonneg _ _) (Nat.cast_nonneg _)
        have hvs1 : (Finset.sum (d1.keys ∩ d2.keys) fun k => valScore (d1.val k) (d2.val k)) /
              (((d1.keys ∩ d2.keys).card : ℕ) : ℚ) ≤ 1 :=
          (div_le_one hcpos).mpr hsum
        linarith

/-! ## Content-structure similarity -/

theorem content_sim_comm (c1 c2 : ContentStructure) :
    calculate_content_similarity c1 c2 = calculate_content_similarity c2 c1 := by
  unfold calculate_content_similarity contentScores
  rw [valScore_comm c1.text_length, valScore_comm c1.heading_count,
    valScore_comm c1.paragraph_count, valScore_comm c1.link_count,
    valScore_comm c1.image_count, valScore_comm c1.list_count]

theorem content_sim_self (c : ContentStructure) : calculate_content_similarity c c = 1 := by
  unfold calculate_content_similarity contentScores
  simp [valScore_self]
  norm_num

theorem content_sim_nonneg (c1 c2 : ContentStructure) :
    0 ≤ calculate_content_similarity c1 c2 := by
  unfold calculate_content_similarity contentScores
  have v1 := valScore_nonneg c1.text_length c2.text_length
  have v2 := valScore_nonneg c1.heading_count c2.heading_count
  have v3 := valScore_nonneg c1.paragraph_count c2.paragraph_count
  have v4 := valScore_nonneg c1.link_count c2.link_count
  have v5 := valScore_nonneg c1.image_count c2.image_count
  have v6 := valScore_nonneg c1.list_count c2.list_count
  rw [if_neg (List.cons_ne_nil _ _)]
  simp only [List.sum_cons, List.sum_nil, List.length_cons, List.length_nil]
  norm_num
  linarith

theorem content_sim_le_one (c1 c2 : ContentStructure) :
    calculate_content_similarity c1 c2 ≤ 1 := by
  unfold calculate_content_similarity contentScores
  have v1 := valScore_le_one c1.text_length c2.text_length
  have v2 := valScore_le_one c1.heading_count c2.heading_count
  have v3 := valScore_le_one c1.paragraph_count c2.paragraph_count
  have v4 := valScore_le_one c1.link_count c2.link_count
  have v5 := valScore_le_one c1.image_count c2.image_count
  have v6 := valScore_le_one c1.list_count c2.list_count
  rw [if_neg (List.cons_ne_nil _ _)]
  simp only [List.sum_cons, List.sum_nil, List.length_cons, List.length_nil]
  norm_num
  linarith

/-! ## Component-count similarity -/

theorem compCountSim_comm (a b : ℕ) : compCountSim a b = compCountSim b a := by
  unfold compCountSim
  have hmax : max a (max b 1) = max b (max a 1) := by omega
  rw [hmax, abs_sub_comm ((a : ℚ)) ((b : ℚ))]

theorem compCountSim_self (a : ℕ) : compCountSim a a = 1 := by
  unfold compCountSim
  simp

theorem compCountSim_nonneg (a b : ℕ) : 0 ≤ compCountSim a b := by
  unfold compCountSim
  have hm : (0 : ℚ) < ((max a (max b 1) : ℕ) : ℚ) := by
    have : 0 < max a (max b 1) := by omega
    exact_mod_cast this
  have h1 : ((a : ℕ) : ℚ) ≤ ((max a (max b 1) : ℕ) : ℚ) := by
    have : a ≤ max a (max b 1) := by omega
    exact_mod_cast this
  have h2 : ((b : ℕ) : ℚ) ≤ ((max a (max b 1) : ℕ) : ℚ) := by
    have : b ≤ max a (max b 1) := by omega
    exact_mod_cast this
  have h0a : (0 : ℚ) ≤ (a : ℚ) := Nat.cast_nonneg a
  have h0b : (0 : ℚ) ≤ (b : ℚ) := Nat.cast_nonneg b
  have habs : |(a : ℚ) - (b : ℚ)| ≤ ((max a (max b 1) : ℕ) : ℚ) :=
    abs_le.mpr ⟨by linarith, by linarith⟩
  have := (div_le_one hm).mpr habs
  linarith

theorem compCountSim_le_one (a b : ℕ) : compCountSim a b ≤ 1 := by
  unfold compCountSim
  have hm : (0 : ℚ) ≤ ((max a (max b 1) : ℕ) : ℚ) := Nat.cast_nonneg _
  have := div_nonneg (abs_nonneg ((a : ℚ) - (b : ℚ))) hm
  linarith

/-- Claim C1: for all structural signatures, the page similarity of
`_calculate_page_similarity` lies in [0,1], is symmetric, and a signature's
similarity to itself is 1.0. -/
theorem C1_page_similarity_contract :
    (∀ f1 f2 : Features,
      0 ≤ calculate_page_similarity f1 f2 ∧ calculate_page_similarity f1 f2 ≤ 1) ∧
    (∀ f1 f2 : Features,
      calculate_page_similarity f1 f2 = calculate_page_similarity f2 f1) ∧
    (∀ f : Features, calculate_page_similarity f f = 1) := by
  refine ⟨fun f1 f2 => ?_, fun f1 f2 => ?_, fun f => ?_⟩
  · have t0 := dict_sim_nonneg f1.tag_structure f2.tag_structure
    have t1 := dict_sim_le_one f1.tag_structure f2.tag_structure
    have c0 := dict_sim_nonneg f1.class_patterns f2.class_patterns
    have c1 := dict_sim_le_one f1.class_patterns f2.class_patterns
    have k0 := compCountSim_nonneg f1.component_count f2.component_count
    have k1 := compCountSim_le_one f1.component_count f2.component_count
    have s0 := content_sim_nonneg f1.content_structure f2.content_structure
    have s1 := content_sim_le_one f1.content_structure f2.content_structure
    unfold calculate_page_similarity
    constructor <;> split <;> linarith
  · unfold calculate_page_similarity
    rw [dict_sim_comm f1.tag_structure, dict_sim_comm f1.class_patterns,
      compCountSim_comm f1.component_count,
      content_sim_comm f1.content_structure]
    by_cases hl : f1.layout_signature = f2.layout_signature
    · simp [hl]
    · have hl2 : ¬ f2.layout_signature = f1.layout_signature := fun h => hl h.symm
      simp [hl, hl2]
  · unfold calculate_page_similarity
    rw [dict_sim_self, dict_sim_self, compCountSim_self, content_sim_self]
    norm_num

/-- Claim C4: `_calculate_dict_similarity` computes exactly the case analysis
the spec states for dict-similarity (both empty → 1; exactly one empty → 0;
no common keys → key-Jaccard · 0.5; otherwise key-Jaccard · 0.3 +
value-similarity · 0.7 with the mean per-key closeness score). -/
theorem C4_dict_similarity_matches_spec (d1 d2 : FreqDict) :
    calculate_dict_similarity d1 d2 = dictSimilaritySpec d1 d2 := by
  unfold calculate_dict_similarity dictSimilaritySpec
  by_cases h1 : d1.keys = ∅ <;> by_cases h2 : d2.keys = ∅ <;> simp [h1, h2]

/-! ## Checked (division-guarded) pipeline -/

theorem valScoreChecked_eq (a b : ℕ) : valScoreChecked a b = some (valScore a b) := by
  unfold valScoreChecked valScore checkedDiv
  split
  · rfl
  · rename_i h
    have hm : ((max a b : ℕ) : ℚ) ≠ 0 := by exact_mod_cast h
    rw [if_neg hm]
    rfl

theorem dictSimilarityChecked_eq (d1 d2 : FreqDict) :
    dictSimilarityChecked d1 d2 = some (calculate_dict_similarity d1 d2) := by
  simp only [dictSimilarityChecked, calculate_dict_similarity]
  split
  · rfl
  · split
    · rfl
    · rename_i hboth hone
      have h1 : d1.keys ≠ ∅ := fun h => hone (Or.inl h)
      have hne : (d1.keys ∪ d2.keys).Nonempty :=
        Finset.Nonempty.mono Finset.subset_union_left
          (Finset.nonempty_iff_ne_empty.mpr h1)
      have hu : (((d1.keys ∪ d2.keys).card : ℕ) : ℚ) ≠ 0 := by
        exact_mod_cast (Finset.card_pos.mpr hne).ne'
      rw [checkedDiv, if_neg hu]
      split
      · rename_i heq
        exact absurd heq (by simp)
      · rename_i ks heq
        injection heq with hks
        subst hks
        split
        · rfl
        · rename_i hcom
          have hall : ∀ k ∈ d1.keys ∩ d2.keys,
              (valScoreChecked (d1.val k) (d2.val k)).isSome := by
            intro k _
            rw [valScoreChecked_eq]
            rfl
          rw [if_pos hall]
          have hcpos : (((d1.keys ∩ d2.keys).card : ℕ) : ℚ) ≠ 0 := by
            exact_mod_cast
              (Finset.card_pos.mpr (Finset.nonempty_iff_ne_empty.mpr hcom)).ne'
          have hsum : (Finset.sum (d1.keys ∩ d2.keys) fun k =>
                (valScoreChecked (d1.val k) (d2.val k)).getD 0) =
              Finset.sum (d1.keys ∩ d2.keys) fun k => valScore (d1.val k) (d2.val k) :=
            Finset.sum_congr rfl fun k _ => by rw [valScoreChecked_eq]; rfl
          rw [hsum, checkedDiv, if_neg hcpos]

theorem contentSimilarityChecked_eq (c1 c2 : ContentStructure) :
    contentSimilarityChecked c1 c2 = some (calculate_content_similarity c1 c2) := by
  have hall : ∀ p ∈ contentPairs c1 c2, (valScoreChecked p.1 p.2).isSome := by
    intro p _
    rw [valScoreChecked_eq]
    rfl
  simp only [contentSimilarityChecked, if_pos hall, contentPairs, List.map_cons,
    List.map_nil, valScoreChecked_eq, Option.getD_some]
  rw [if_neg (List.cons_ne_nil _ _)]
  unfold calculate_content_similarity contentScores checkedDiv
  rw [if_neg (List.cons_ne_nil _ _)]
  norm_num

theorem compCountSimChecked_eq (a b : ℕ) :
    compCountSimChecked a b = some (compCountSim a b) := by
  unfold compCountSimChecked compCountSim checkedDiv
  have hm : ((max a (max b 1) : ℕ) : ℚ) ≠ 0 := by
    have : 0 < max a (max b 1) := by omega
    exact_mod_cast this.ne'
  rw [if_neg hm]
  rfl

/-- Claim C10: every division performed during page-similarity computation has
a non-zero divisor — the checked pipeline, which refuses any zero divisor,
agrees with `_calculate_page_similarity` on every pair of signatures, zero
counts and empty frequency maps included. -/
theorem C10_similarity_division_guarded (f1 f2 : Features) :
    pageSimilarityChecked f1 f2 = some (calculate_page_similarity f1 f2) := by
  simp only [pageSimilarityChecked, dictSimilarityChecked_eq, compCountSimChecked_eq,
    contentSimilarityChecked_eq]
  rfl

/-! ## Layout signature -/

theorem count_ite_singleton_ne {x c : Char} (h : x ≠ c) (p : Prop) [Decidable p] :
    (if p then [x] else []).count c = 0 := by
  split <;> simp [List.count_singleton, h]

theorem count_ite_singleton_eq (x : Char) (p : Prop) [Decidable p] :
    (if p then [x] else []).count x = if p then 1 else 0 := by
  split <;> simp

/-- The landmark letters of `_extract_layout_signature`, in emission order. -/
theorem layout_parts_perm (d : Doc) :
    List.Perm (extract_layout_signature d)
      ((if hasTag d "header" then ['H'] else []) ++
        (if hasTag d "nav" then ['N'] else []) ++
        (if hasTag d "main" then ['M'] else []) ++
        (if hasTag d "aside" then ['A'] else []) ++
        (if hasTag d "footer" then ['F'] else []) ++
        (if hasGridClass d then ['G'] else []) ++
        (if hasTag d "form" then ['F'] else [])) :=
  List.perm_insertionSort _ _

/-- Claim C6 (amended): the layout signature is the sorted list containing one
letter per present landmark — H (header), N (nav), M (main), A (aside),
F (footer), G (grid class), and F again for a form; every letter other than
F appears at most once, while footer and form share the letter F, so both at
once yield a double F.  No other letter ever appears, and the result is
sorted, hence order-independent. -/
theorem C6_layout_signature_amended (d : Doc) :
    List.Sorted (· ≤ ·) (extract_layout_signature d) ∧
    (extract_layout_signature d).count 'H' = (if hasTag d "header" then 1 else 0) ∧
    (extract_layout_signature d).count 'N' = (if hasTag d "nav" then 1 else 0) ∧
    (extract_layout_signature d).count 'M' = (if hasTag d "main" then 1 else 0) ∧
    (extract_layout_signature d).count 'A' = (if hasTag d "aside" then 1 else 0) ∧
    (extract_layout_signature d).count 'G' = (if hasGridClass d then 1 else 0) ∧
    (extract_layout_signature d).count 'F' =
      (if hasTag d "footer" then 1 else 0) + (if hasTag d "form" then 1 else 0) ∧
    ∀ c : Char, c ∉ (['H', 'N', 'M', 'A', 'F', 'G'] : List Char) →
      (extract_layout_signature d).count c = 0 := by
  have hperm := layout_parts_perm d
  refine ⟨List.sorted_insertionSort _ _, ?_, ?_, ?_, ?_, ?_, ?_, ?_⟩
  · rw [hperm.count_eq]
    simp [List.count_append, count_ite_singleton_eq,
      count_ite_singleton_ne (show ('N' : Char) ≠ 'H' by decide),
      count_ite_singleton_ne (show ('M' : Char) ≠ 'H' by decide),
      count_ite_singleton_ne (show ('A' : Char) ≠ 'H' by decide),
      count_ite_singleton_ne (show ('F' : Char) ≠ 'H' by decide),
      count_ite_singleton_ne (show ('G' : Char) ≠ 'H' by decide)]
  · rw [hperm.count_eq]
    simp [List.count_append, count_ite_singleton_eq,
      count_ite_singleton_ne (show ('H' : Char) ≠ 'N' by decide),
      count_ite_singleton_ne (show ('M' : Char) ≠ 'N' by decide),
      count_ite_singleton_ne (show ('A' : Char) ≠ 'N' by decide),
      count_ite_singleton_ne (show ('F' : Char) ≠ 'N' by decide),
      count_ite_singleton_ne (show ('G' : Char) ≠ 'N' by decide)]
  · rw [hperm.count_eq]
    simp [List.count_append, count_ite_singleton_eq,
      count_ite_singleton_ne (show ('H' : Char) ≠ 'M' by decide),
      count_ite_singleton_ne (show ('N' : Char) ≠ 'M' by decide),
      count_ite_singleton_ne (show ('A' : Char) ≠ 'M' by decide),
      count_ite_singleton_ne (show ('F' : Char) ≠ 'M' by decide),
      count_ite_singleton_ne (show ('G' : Char) ≠ 'M' by decide)]
  · rw [hperm.count_eq]
    simp [List.count_append, count_ite_singleton_eq,
      count_ite_singleton_ne (show ('H' : Char) ≠ 'A' by decide),
      count_ite_singleton_ne (show ('N' : Char) ≠ 'A' by decide),
      count_ite_singleton_ne (show ('M' : Char) ≠ 'A' by decide),
      count_ite_singleton_ne (show ('F' : Char) ≠ 'A' by decide),
      count_ite_singleton_ne (show ('G' : Char) ≠ 'A' by decide)]
  · rw [hperm.count_eq]
    simp [List.count_append, count_ite_singleton_eq,
      count_ite_singleton_ne (show ('H' : Char) ≠ 'G' by decide),
      count_ite_singleton_ne (show ('N' : Char) ≠ 'G' by decide),
      count_ite_singleton_ne (show ('M' : Char) ≠ 'G' by decide),
      count_ite_singleton_ne (show ('A' : Char) ≠ 'G' by decide),
      count_ite_singleton_ne (show ('F' : Char) ≠ 'G' by decide)]
  · rw [hperm.count_eq]
    simp [List.count_append, count_ite_singleton_eq,
      count_ite_singleton_ne (show ('H' : Char) ≠ 'F' by decide),
      count_ite_singleton_ne (show ('N' : Char) ≠ 'F' by decide),
      count_ite_singleton_ne (show ('M' : Char) ≠ 'F' by decide),
      count_ite_singleton_ne (show ('A' : Char) ≠ 'F' by decide),
      count_ite_singleton_ne (show ('G' : Char) ≠ 'F' by decide)]
  · intro c hc
    simp only [List.mem_cons, List.not_mem_nil, or_false, not_or] at hc
    obtain ⟨h1, h2, h3, h4, h5, h6⟩ := hc
    rw [hperm.count_eq]
    simp [List.count_append,
      count_ite_singleton_ne (Ne.symm h1), count_ite_singleton_ne (Ne.symm h2),
      count_ite_singleton_ne (Ne.symm h3), count_ite_singleton_ne (Ne.symm h4),
      count_ite_singleton_ne (Ne.symm h5), count_ite_singleton_ne (Ne.symm h6)]

theorem C6_layout_signature_amended_witness :
    ('Z' : Char) ∉ (['H', 'N', 'M', 'A', 'F', 'G'] : List Char) ∧
    (extract_layout_signature
        { elements := [{ tag := "header", classes := none, idAttr := none }]
        , textLen := 5 }).count 'Z' = 0 :=
  ⟨by decide,
    (C6_layout_signature_amended
        { elements := [{ tag := "header", classes := none, idAttr := none }]
        , textLen := 5 }).2.2.2.2.2.2.2 'Z' (by decide)⟩

/-- Claim C6 (counterexample): on a document containing a footer and a form
(two distinct structural landmarks), the layout signature is "FF" — the letter
F appears twice, so distinct landmarks do not contribute distinct letters and
the signature is not duplicate-free. -/
theorem C6_layout_signature_counterexample :
    extract_layout_signature
        { elements := [{ tag := "footer", classes := none, idAttr := none },
                       { tag := "form", classes := none, idAttr := none }]
        , textLen := 0 } = ['F', 'F'] ∧
    ¬ (extract_layout_signature
        { elements := [{ tag := "footer", classes := none, idAttr := none },
                       { tag := "form", classes := none, idAttr := none }]
        , textLen := 0 }).Nodup := by
  constructor
  · rfl
  · decide

/-! ## Clustering guard -/

/-- Claim C9: with fewer than two pages, `cluster_pages_by_structure` returns
the empty clustering result (empty clusters, empty similarity matrix, empty
recommendations) instead of raising. -/
theorem C9_clustering_too_few_pages (dbscan : List (List ℚ) → List ℤ)
    (pages : List PageA) (t : ℚ) (h : pages.length < 2) :
    cluster_pages_by_structure dbscan pages t = emptyClusterResult := by
  unfold cluster_pages_by_structure
  rw [if_pos h]

theorem C9_clustering_too_few_pages_witness :
    ([] : List PageA).length < 2 ∧
    cluster_pages_by_structure (fun _ => []) [] (4/5) = emptyClusterResult :=
  ⟨by decide, C9_clustering_too_few_pages (fun _ => []) [] (4/5) (by decide)⟩

/-! ## Crawler: basic step lemmas -/

theorem crawl_links_nil (cfg : CrawlerConfigC) (web : Web) (depth : ℕ) (st : CrawlSt) :
    crawl_links cfg web [] depth st = st := by
  simp [crawl_links]

theorem crawl_links_cons (cfg : CrawlerConfigC) (web : Web) (l : LinkC) (ls : List LinkC)
    (depth : ℕ) (st : CrawlSt) :
    crawl_links cfg web (l :: ls) depth st =
      crawl_links cfg web ls depth (crawl_page cfg web l.url depth st) := by
  rw [crawl_links]

theorem download_page_spec (web : Web) (url : String) (depth : ℕ) (p : PageC)
    (h : download_page web url depth = some p) : p.url = url ∧ p.depth = depth := by
  cases hw : web url with
  | none => simp [download_page, hw] at h
  | some r =>
    simp only [download_page, hw] at h
    split at h
    · exact absurd h (by simp)
    · split at h
      · exact absurd h (by simp)
      · injection h with h2
        subst h2
        exact ⟨rfl, rfl⟩

theorem pairedEvents_append (l1 l2 : List String) :
    pairedEvents (l1 ++ l2) = pairedEvents l1 ++ pairedEvents l2 := by
  induction l1 with
  | nil => simp [pairedEvents]
  | cons u us ih => simp [pairedEvents, ih]

theorem nodup_append_singleton {α : Type} (l : List α) (a : α)
    (h1 : l.Nodup) (h2 : a ∉ l) : (l ++ [a]).Nodup := by
  induction l with
  | nil => simp
  | cons b bs ih =>
    simp only [List.mem_cons, not_or] at h2
    simp only [List.nodup_cons] at h1
    simp only [List.cons_append, List.nodup_cons, List.mem_append, List.mem_singleton]
    refine ⟨?_, ih h1.2 h2.2⟩
    rintro (hb | hb)
    · exact h1.1 hb
    · exact h2.1 hb.symm

/-! ## Crawler: the invariant engine

`CrawlInv` is preserved by `_crawl_page` (and by the sibling loop), and the
error list is never touched, for every call depth and every crawl state.  The
induction is on `max_depth + 1 - depth`, the quantity the source's own depth
guard drives to zero. -/

theorem crawl_inv_engine (cfg : CrawlerConfigC) (web : Web) (gas : ℕ) :
    (∀ url depth st, cfg.max_depth + 1 - depth ≤ gas → CrawlInv cfg web st →
        CrawlInv cfg web (crawl_page cfg web url depth st) ∧
        (crawl_page cfg web url depth st).errors = st.errors) ∧
    (∀ links depth st, cfg.max_depth + 1 - depth ≤ gas → CrawlInv cfg web st →
        CrawlInv cfg web (crawl_links cfg web links depth st) ∧
        (crawl_links cfg web links depth st).errors = st.errors) := by
  induction gas with
  | zero =>
    have hpage : ∀ url depth st, cfg.max_depth + 1 - depth ≤ 0 → CrawlInv cfg web st →
        CrawlInv cfg web (crawl_page cfg web url depth st) ∧
        (crawl_page cfg web url depth st).errors = st.errors := by
      intro url depth st hg hInv
      have hd : cfg.max_depth < depth := by omega
      by_cases hdl : st.deadlocked = true
      · simp only [crawl_page, if_pos hdl]
        exact ⟨hInv, by trivial⟩
      · simp only [crawl_page, hdl, ite_false, if_pos hd]
        exact ⟨hInv, by trivial⟩
    refine ⟨hpage, ?_⟩
    intro links depth st hg hInv
    induction links generalizing st with
    | nil =>
      rw [crawl_links_nil]
      exact ⟨hInv, rfl⟩
    | cons l ls ih =>
      rw [crawl_links_cons]
      obtain ⟨h1, h2⟩ := hpage l.url depth st hg hInv
      obtain ⟨h3, h4⟩ := ih _ h1
      exact ⟨h3, h4.trans h2⟩
  | succ n ih =>
    obtain ⟨ihP, ihL⟩ := ih
    have hpage : ∀ url depth st, cfg.max_depth + 1 - depth ≤ n + 1 → CrawlInv cfg web st →
        CrawlInv cfg web (crawl_page cfg web url depth st) ∧
        (crawl_page cfg web url depth st).errors = st.errors := by
      intro url depth st hg hInv
      by_cases hdl : st.deadlocked = true
      · simp only [crawl_page, if_pos hdl]
        exact ⟨hInv, by trivial⟩
      by_cases hd : cfg.max_depth < depth
      · simp only [crawl_page, hdl, ite_false, if_pos hd]
        exact ⟨hInv, by trivial⟩
      by_cases hv : url ∈ st.visited
      · simp only [crawl_page, hdl, hd, ite_false, if_pos hv]
        exact ⟨hInv, by trivial⟩
      obtain ⟨i1, i2, i3, i4, i5, i6, i7, i8⟩ := hInv
      have hdep : depth ≤ cfg.max_depth := by omega
      -- invariant for the state after the visited/trace/events updates
      have hstep : ∀ semv : ℕ, CrawlInv cfg web
          { visited := st.visited ++ [url], pages := st.pages, errors := st.errors
          , trace := st.trace ++ [(url, depth)]
          , events := st.events ++ [FetchEv.start url, FetchEv.done url]
          , sem := semv, deadlocked := false } := by
        intro semv
        refine ⟨?_, i2, ?_, ?_, i5, ?_, i7, ?_⟩
        · intro u hu
          exact List.mem_append_left _ (i1 u hu)
        · rw [List.map_append]
          exact nodup_append_singleton _ _ i3 fun hmem => hv (i4 url hmem)
        · intro u hu
          rw [List.map_append] at hu
          rcases List.mem_append.mp hu with hu | hu
          · exact List.mem_append_left _ (i4 u hu)
          · exact List.mem_append_right _ hu
        · intro e he
          rcases List.mem_append.mp he with he | he
          · exact i6 e he
          · simp only [List.mem_singleton] at he
            subst he
            exact hdep
        · rw [List.map_append, pairedEvents_append, i8]
          rfl
      simp only [crawl_page, hdl, hd, hv, ite_false]
      by_cases hsem : st.sem = 0
      · rw [if_pos hsem]
        refine ⟨⟨?_, i2, i3, ?_, i5, i6, i7, i8⟩, rfl⟩
        · intro u hu
          exact List.mem_append_left _ (i1 u hu)
        · intro u hu
          exact List.mem_append_left _ (i4 u hu)
      · rw [if_neg hsem]
        cases hdp : download_page web url depth with
        | none =>
          simp only [hdp]
          exact ⟨hstep _, rfl⟩
        | some page =>
          simp only [hdp]
          obtain ⟨hpu, hpd⟩ := download_page_spec web url depth page hdp
          have hafter : CrawlInv cfg web
              { visited := st.visited ++ [url], pages := st.pages ++ [page]
              , errors := st.errors
              , trace := st.trace ++ [(url, depth)]
              , events := st.events ++ [FetchEv.start url, FetchEv.done url]
              , sem := st.sem - 1, deadlocked := false } := by
            obtain ⟨j1, j2, j3, j4, j5, j6, j7, j8⟩ := hstep (st.sem - 1)
            refine ⟨?_, ?_, j3, j4, ?_, j6, ?_, j8⟩
            · intro u hu
              rw [List.map_append] at hu
              rcases List.mem_append.mp hu with hu | hu
              · exact j1 u hu
              · simp only [List.map_cons, List.map_nil, List.mem_singleton] at hu
                subst hu
                rw [hpu]
                exact List.mem_append_right _ (by simp)
            · rw [List.map_append]
              refine nodup_append_singleton _ _ j2 fun hmem => ?_
              simp only [List.map_cons, List.map_nil] at hmem ⊢
              rw [hpu] at hmem
              exact hv (i1 url hmem)
            · intro p hp
              rcases List.mem_append.mp hp with hp | hp
              · exact j5 p hp
              · simp only [List.mem_singleton] at hp
                subst hp
                rw [hpd]
                exact hdep
            · intro p hp
              rcases List.mem_append.mp hp with hp | hp
              · exact j7 p hp
              · simp only [List.mem_singleton] at hp
                subst hp
                rw [hpu, hpd]
                exact hdp
          have hfinal : ∀ s4 : CrawlSt, CrawlInv cfg web s4 → s4.errors = st.errors →
              CrawlInv cfg web
                (if s4.deadlocked = true then s4 else { s4 with sem := s4.sem + 1 }) ∧
              (if s4.deadlocked = true then s4
                else { s4 with sem := s4.sem + 1 }).errors = st.errors := by
            intro s4 hi he
            split
            · exact ⟨hi, he⟩
            · exact ⟨hi, he⟩
          by_cases hrec : depth < cfg.max_depth
          · rw [if_pos hrec]
            have hgas : cfg.max_depth + 1 - (depth + 1) ≤ n := by omega
            obtain ⟨h5, h6⟩ := ihL (page.links.filter LinkC.is_internal) (depth + 1) _ hgas hafter
            exact hfinal _ h5 h6
          · rw [if_neg hrec]
            exact hfinal _ hafter rfl
    refine ⟨hpage, ?_⟩
    intro links depth st hg hInv
    induction links generalizing st with
    | nil =>
      rw [crawl_links_nil]
      exact ⟨hInv, rfl⟩
    | cons l ls ihl =>
      rw [crawl_links_cons]
      obtain ⟨h1, h2⟩ := hpage l.url depth st hg hInv
      obtain ⟨h3, h4⟩ := ihl _ h1
      exact ⟨h3, h4.trans h2⟩

/-- The invariant, instantiated at the entry point `crawl`. -/
theorem crawl_inv (cfg : CrawlerConfigC) (web : Web) (u : String) :
    ((crawl cfg web u).pages.map PageC.url).Nodup ∧
    ((crawl cfg web u).trace.map Prod.fst).Nodup ∧
    (crawl cfg web u).errors = [] ∧
    (∀ p ∈ (crawl cfg web u).pages, p.depth ≤ cfg.max_depth) ∧
    (∀ e ∈ (crawl cfg web u).trace, e.2 ≤ cfg.max_depth) ∧
    (∀ p ∈ (crawl cfg web u).pages, download_page web p.url p.depth = some p) ∧
    (crawl cfg web u).events = pairedEvents ((crawl cfg web u).trace.map Prod.fst) := by
  have hinit : CrawlInv cfg web
      { visited := [], pages := [], errors := [], trace := [], events := []
      , sem := cfg.max_concurrent, deadlocked := false } := by
    refine ⟨?_, ?_, ?_, ?_, ?_, ?_, ?_, rfl⟩ <;> simp
  obtain ⟨hP, _⟩ := crawl_inv_engine cfg web (cfg.max_depth + 1)
  obtain ⟨hInv, hErr⟩ := hP u 0 _ (by omega) hinit
  obtain ⟨i1, i2, i3, i4, i5, i6, i7, i8⟩ := hInv
  exact ⟨i2, i3, hErr, i5, i6, i7, i8⟩

theorem inflightAux_paired (l : List String) :
    ∀ m : ℕ, inflightAux (pairedEvents l) 0 m ≤ max m 1 := by
  induction l with
  | nil =>
    intro m
    simp only [pairedEvents, inflightAux]
    omega
  | cons u us ih =>
    intro m
    calc inflightAux (pairedEvents (u :: us)) 0 m
        = inflightAux (pairedEvents us) 0 (max m 1) := by
          simp [pairedEvents, inflightAux]
      _ ≤ max (max m 1) 1 := ih _
      _ = max m 1 := by omega

/-- Claim C2 (code evaluated at the failing input): every URL is fetched at
most once and never inserted twice into the sitemap, for any crawl; on the
A↔B cycle with `max_concurrent = 2` the crawl terminates with each page
fetched exactly once; but with `max_concurrent = 1` — a configuration the
config surface allows — the nested semaphore acquisition deadlocks: A is
fetched, B never is, and the run hangs instead of terminating. -/
theorem C2_fetch_at_most_once_and_cycle :
    (∀ (cfg : CrawlerConfigC) (web : Web) (u : String),
      ((crawl cfg web u).trace.map Prod.fst).Nodup ∧
      ((crawl cfg web u).pages.map PageC.url).Nodup) ∧
    ((crawl ⟨3, 2⟩ webCycle "A").trace = [("A", 0), ("B", 1)] ∧
      (crawl ⟨3, 2⟩ webCycle "A").pages.map PageC.url = ["A", "B"] ∧
      (crawl ⟨3, 2⟩ webCycle "A").deadlocked = false) ∧
    ((crawl ⟨3, 1⟩ webCycle "A").deadlocked = true ∧
      (crawl ⟨3, 1⟩ webCycle "A").trace = [("A", 0)]) := by
  refine ⟨fun cfg web u => ?_, ⟨?_, ?_, ?_⟩, ?_, ?_⟩
  · obtain ⟨h1, h2, -⟩ := crawl_inv cfg web u
    exact ⟨h2, h1⟩
  all_goals
    simp [crawl, crawl_page, crawl_links, download_page, webCycle, headerMainType]

/-- Claim C3: every page in the sitemap and every fetch in the trace respects
the configured maximum depth, for any crawl; on the chain A → B → C → D with
max depth 2, the final sitemap is exactly {A, B, C}: D is never fetched and is
absent. -/
theorem C3_depth_bound :
    (∀ (cfg : CrawlerConfigC) (web : Web) (u : String),
      ∀ p ∈ (crawl cfg web u).pages, p.depth ≤ cfg.max_depth) ∧
    (∀ (cfg : CrawlerConfigC) (web : Web) (u : String),
      ∀ e ∈ (crawl cfg web u).trace, e.2 ≤ cfg.max_depth) ∧
    ((crawl ⟨2, 5⟩ webChain "A").pages.map PageC.url = ["A", "B", "C"] ∧
      (crawl ⟨2, 5⟩ webChain "A").trace = [("A", 0), ("B", 1), ("C", 2)] ∧
      "D" ∉ (crawl ⟨2, 5⟩ webChain "A").pages.map PageC.url ∧
      "D" ∉ (crawl ⟨2, 5⟩ webChain "A").trace.map Prod.fst) := by
  refine ⟨fun cfg web u => ?_, fun cfg web u => ?_, ?_, ?_, ?_, ?_⟩
  · exact (crawl_inv cfg web u).2.2.2.1
  · exact (crawl_inv cfg web u).2.2.2.2.1
  all_goals
    simp [crawl, crawl_page, crawl_links, download_page, webChain, headerMainType]

theorem C3_depth_bound_witness :
    (⟨"A", 0, [⟨"B", true⟩]⟩ : PageC) ∈ (crawl ⟨2, 5⟩ webChain "A").pages ∧
    (⟨"A", 0, [⟨"B", true⟩]⟩ : PageC).depth ≤ (2 : ℕ) :=
  ⟨by simp [crawl, crawl_page, crawl_links, download_page, webChain, headerMainType],
    C3_depth_bound.1 ⟨2, 5⟩ webChain "A" ⟨"A", 0, [⟨"B", true⟩]⟩
      (by simp [crawl, crawl_page, crawl_links, download_page, webChain, headerMainType])⟩

/-- Claim C5 (amended): when the fetch of a linked page fails (request error,
non-200 status or non-HTML content type), that page is absent from the final
sitemap and the crawl of sibling branches continues unaffected — but no entry
is appended to `CrawlResult.errors` for it: the failure is only logged, and
with non-throwing collaborators the error list stays empty. -/
theorem C5_failed_fetch_amended :
    (∀ (cfg : CrawlerConfigC) (web : Web) (u v : String), fetchFails web v →
      v ∉ (crawl cfg web u).pages.map PageC.url) ∧
    (∀ (cfg : CrawlerConfigC) (web : Web) (u : String), (crawl cfg web u).errors = []) ∧
    ((crawl ⟨2, 5⟩ webFail "A").pages.map PageC.url = ["A", "C"] ∧
      "B" ∉ (crawl ⟨2, 5⟩ webFail "A").pages.map PageC.url ∧
      (crawl ⟨2, 5⟩ webFail "A").errors = []) := by
  refine ⟨fun cfg web u v hv hmem => ?_, fun cfg web u => (crawl_inv cfg web u).2.2.1,
    ?_, ?_, ?_⟩
  · obtain ⟨p, hp, hpu⟩ := List.mem_map.mp hmem
    have hdl := (crawl_inv cfg web u).2.2.2.2.2.1 p hp
    rw [hpu] at hdl
    rw [hv p.depth] at hdl
    exact Option.noConfusion hdl
  all_goals
    simp [crawl, crawl_page, crawl_links, download_page, webFail, headerMainType]

theorem C5_failed_fetch_amended_witness :
    fetchFails webFail "B" ∧ "B" ∉ (crawl ⟨2, 5⟩ webFail "A").pages.map PageC.url := by
  have hf : fetchFails webFail "B" := by
    intro d
    simp [download_page, webFail]
  exact ⟨hf, C5_failed_fetch_amended.1 ⟨2, 5⟩ webFail "A" "B" hf⟩

/-- Claim C5 (counterexample): on scenario D — the root links to a page
answering HTTP 404 and to a healthy sibling — the failed page is indeed absent
and the sibling is crawled, but the error list of the finished crawl is empty:
no entry, let alone exactly one, was appended for the failed fetch. -/
theorem C5_failed_fetch_counterexample :
    (crawl ⟨2, 5⟩ webFail "A").pages.map PageC.url = ["A", "C"] ∧
    ¬ ((crawl ⟨2, 5⟩ webFail "A").errors.length = 1) := by
  constructor <;>
    simp [crawl, crawl_page, crawl_links, download_page, webFail, headerMainType]

/-- Claim C7 (code evaluated at the failing input): the traversal awaits each
child crawl to completion inside the single root task, so at most one fetch is
ever in flight, whatever `max_concurrent` is configured; in particular, with
two sibling links and a semaphore capacity of 2, the fetch intervals are
strictly sequential and the in-flight maximum is 1, not 2. -/
theorem C7_sequential_await :
    (∀ (cfg : CrawlerConfigC) (web : Web) (u : String),
      inflightMax (crawl cfg web u).events ≤ 1) ∧
    ((crawl ⟨3, 2⟩ webSiblings "A").events =
      [FetchEv.start "A", FetchEv.done "A", FetchEv.start "B", FetchEv.done "B",
        FetchEv.start "C", FetchEv.done "C"] ∧
      inflightMax (crawl ⟨3, 2⟩ webSiblings "A").events = 1) := by
  refine ⟨fun cfg web u => ?_, ?_, ?_⟩
  · have hev := (crawl_inv cfg web u).2.2.2.2.2.2
    rw [inflightMax, hev]
    exact le_trans (inflightAux_paired _ 0) (by omega)
  all_goals
    simp [crawl, crawl_page, crawl_links, download_page, webSiblings, headerMainType,
      inflightMax, inflightAux]

/-! ## URL canonicalization: claim C8 -/

theorem isPrefixOf_append (l t : List Char) : l.isPrefixOf (l ++ t) = true := by
  induction l with
  | nil => simp [List.isPrefixOf]
  | cons a as ih => simp [List.isPrefixOf, ih]

theorem take_two_eq {u : List Char} {a b : Char} (h : u.take 2 = [a, b]) :
    u = a :: b :: u.drop 2 := by
  match u with
  | [] => simp at h
  | [x] => simp at h
  | x :: y :: rest =>
    simp only [List.take] at h
    injection h with h1 h2
    injection h2 with h2 h3
    subst h1; subst h2
    rfl

theorem isPrefixOf_exists (l b : List Char) (h : l.isPrefixOf b = true) :
    ∃ t, b = l ++ t := by
  induction l generalizing b with
  | nil => exact ⟨b, rfl⟩
  | cons a as ih =>
    cases b with
    | nil => simp [List.isPrefixOf] at h
    | cons x xs =>
      simp only [List.isPrefixOf, Bool.and_eq_true, beq_iff_eq] at h
      obtain ⟨rfl, h2⟩ := h
      obtain ⟨t, rfl⟩ := ih xs h2
      exact ⟨t, rfl⟩

theorem prefix_http (b : List Char) (h : "http://".data.isPrefixOf b = true) :
    ∃ t, b = 'h' :: 't' :: 't' :: 'p' :: ':' :: '/' :: '/' :: t :=
  isPrefixOf_exists "http://".data b h

theorem prefix_https (b : List Char) (h : "https://".data.isPrefixOf b = true) :
    ∃ t, b = 'h' :: 't' :: 't' :: 'p' :: 's' :: ':' :: '/' :: '/' :: t :=
  isPrefixOf_exists "https://".data b h

theorem normalize_fixed_http (hv : List Char → Bool) (b t : List Char) :
    normalize_url hv ('h' :: 't' :: 't' :: 'p' :: ':' :: '/' :: '/' :: t) b =
      Except.ok ('h' :: 't' :: 't' :: 'p' :: ':' :: '/' :: '/' :: t) := by
  simp [normalize_url, List.isPrefixOf]

theorem normalize_fixed_https (hv : List Char → Bool) (b t : List Char) :
    normalize_url hv ('h' :: 't' :: 't' :: 'p' :: 's' :: ':' :: '/' :: '/' :: t) b =
      Except.ok ('h' :: 't' :: 't' :: 'p' :: 's' :: ':' :: '/' :: '/' :: t) := by
  simp [normalize_url, List.isPrefixOf]



theorem urlsplitM_http_struct (hv : List Char → Bool) (t : List Char) :
    urlsplitM hv ('h' :: 't' :: 't' :: 'p' :: ':' :: '/' :: '/' :: t) [] =
      urlsplitM_after_netloc hv "http".data
        ((List.filter (fun c => !isUnsafeByte c) t).takeWhile fun c => !isNetlocDelim c)
        ((List.filter (fun c => !isUnsafeByte c) t).dropWhile fun c => !isNetlocDelim c) := by
  rfl

theorem urlsplitM_https_struct (hv : List Char → Bool) (t : List Char) :
    urlsplitM hv ('h' :: 't' :: 't' :: 'p' :: 's' :: ':' :: '/' :: '/' :: t) [] =
      urlsplitM_after_netloc hv "https".data
        ((List.filter (fun c => !isUnsafeByte c) t).takeWhile fun c => !isNetlocDelim c)
        ((List.filter (fun c => !isUnsafeByte c) t).dropWhile fun c => !isNetlocDelim c) := by
  rfl

theorem urlsplitM_scheme_http (hv : List Char → Bool) (t : List Char) (sp : SplitResult)
    (h : urlsplitM hv ('h' :: 't' :: 't' :: 'p' :: ':' :: '/' :: '/' :: t) [] = Except.ok sp) :
    sp.scheme = "http".data := by
  rw [urlsplitM_http_struct] at h
  unfold urlsplitM_after_netloc at h
  split at h
  · exact absurd h (by simp)
  · split at h
    · exact absurd h (by simp)
    · injection h with h2
      subst h2
      rfl

theorem urlsplitM_scheme_https (hv : List Char → Bool) (t : List Char) (sp : SplitResult)
    (h : urlsplitM hv ('h' :: 't' :: 't' :: 'p' :: 's' :: ':' :: '/' :: '/' :: t) [] =
      Except.ok sp) :
    sp.scheme = "https".data := by
  rw [urlsplitM_https_struct] at h
  unfold urlsplitM_after_netloc at h
  split at h
  · exact absurd h (by simp)
  · split at h
    · exact absurd h (by simp)
    · injection h with h2
      subst h2
      rfl

theorem urlparseM_fields (hv : List Char → Bool) (u s : List Char) (pr : ParseResult)
    (h : urlparseM hv u s = Except.ok pr) :
    ∃ sp, urlsplitM hv u s = Except.ok sp ∧ pr.scheme = sp.scheme ∧ pr.netloc = sp.netloc := by
  cases hsp : urlsplitM hv u s with
  | error e => simp [urlparseM, hsp] at h
  | ok sp =>
    simp only [urlparseM, hsp] at h
    refine ⟨sp, rfl, ?_⟩
    split at h <;> (injection h with h2; subst h2; exact ⟨rfl, rfl⟩)
theorem urlunsplitM_netloc_form (scheme netloc path query fragment : List Char)
    (hs : scheme ≠ []) (hn : scheme ∈ uses_netloc) :
    ∃ rest, urlunsplitM scheme netloc path query fragment =
      scheme ++ ':' :: '/' :: '/' :: rest := by
  have step : ∀ (A add : List Char) (c : Prop) (inst : Decidable c),
      (∃ r, A = scheme ++ ':' :: '/' :: '/' :: r) →
      ∃ r, (if c then A ++ add else A) = scheme ++ ':' :: '/' :: '/' :: r := by
    intro A add c inst hA
    obtain ⟨r, hr⟩ := hA
    split
    · exact ⟨r ++ add, by rw [hr]; simp⟩
    · exact ⟨r, hr⟩
  simp only [urlunsplitM]
  apply step
  apply step
  rw [if_pos hs]
  by_cases hnl : netloc = []
  · by_cases hp2 : path.take 2 = "//".data
    · have hcond : ¬ (netloc ≠ [] ∨
          (scheme ≠ [] ∧ scheme ∈ uses_netloc ∧ path.take 2 ≠ "//".data)) := by
        push_neg
        exact ⟨hnl, fun _ _ => by simpa using hp2⟩
      rw [if_neg hcond]
      have hpath : path = '/' :: '/' :: path.drop 2 := take_two_eq hp2
      refine ⟨path.drop 2, ?_⟩
      nth_rewrite 1 [hpath]
      rfl
    · rw [if_pos (Or.inr ⟨hs, hn, hp2⟩)]
      exact ⟨netloc ++ (if path ≠ [] ∧ path.take 1 ≠ "/".data then '/' :: path else path),
        rfl⟩
  · rw [if_pos (Or.inl hnl)]
    exact ⟨netloc ++ (if path ≠ [] ∧ path.take 1 ≠ "/".data then '/' :: path else path),
      rfl⟩

theorem urlunparseM_netloc_form (scheme netloc path params query fragment : List Char)
    (hs : scheme ≠ []) (hn : scheme ∈ uses_netloc) :
    ∃ rest, urlunparseM scheme netloc path params query fragment =
      scheme ++ ':' :: '/' :: '/' :: rest := by
  unfold urlunparseM
  exact urlunsplitM_netloc_form scheme netloc _ query fragment hs hn


theorem urljoinResolve_ok_shape (b u : ParseResult) (url r : List Char)
    (hne : ¬ (u.scheme ≠ b.scheme ∨ u.scheme ∉ uses_relative))
    (h : urljoinResolve b u url = Except.ok r) :
    ∃ n p pa q f, r = urlunparseM u.scheme n p pa q f := by
  simp only [urljoinResolve] at h
  rw [if_neg hne] at h
  by_cases hnl : u.scheme ∈ uses_netloc ∧ u.netloc ≠ []
  · rw [if_pos hnl] at h
    injection h with h2
    exact ⟨u.netloc, u.path, u.params, u.query, u.fragment, h2.symm⟩
  · rw [if_neg hnl] at h
    by_cases hp0 : u.path = [] ∧ u.params = []
    · rw [if_pos hp0] at h
      injection h with h2
      exact ⟨_, _, _, _, _, h2.symm⟩
    · rw [if_neg hp0] at h
      injection h with h2
      exact ⟨_, _, _, _, _, h2.symm⟩



set_option maxHeartbeats 1600000 in
/-- Claim C8 (amended): URL canonicalization is idempotent for every URL
string whenever the base is an absolute http(s) URL — the form every real
referring page URL has. -/
theorem C8_normalize_url_idempotent_amended (hv : List Char → Bool) (u b r : List Char)
    (hb : "http://".data.isPrefixOf b = true ∨ "https://".data.isPrefixOf b = true)
    (h : normalize_url hv u b = Except.ok r) :
    normalize_url hv r b = Except.ok r := by
  have hfix : ∀ x : List Char,
      ("http://".data.isPrefixOf x = true ∨ "https://".data.isPrefixOf x = true) →
      normalize_url hv x b = Except.ok x := by
    intro x hx
    rcases hx with hx | hx
    · obtain ⟨t, rfl⟩ := prefix_http x hx
      exact normalize_fixed_http hv b t
    · obtain ⟨t, rfl⟩ := prefix_https x hx
      exact normalize_fixed_https hv b t
  have hbne : b ≠ [] := by
    rcases hb with hx | hx
    · obtain ⟨t, rfl⟩ := prefix_http b hx
      simp
    · obtain ⟨t, rfl⟩ := prefix_https b hx
      simp
  have hbScheme : ∀ pr : ParseResult, urlparseM hv b [] = Except.ok pr →
      pr.scheme = "http".data ∨ pr.scheme = "https".data := by
    intro pr hpr
    obtain ⟨sp, hsp, hsch, -⟩ := urlparseM_fields hv b [] pr hpr
    rcases hb with hx | hx
    · obtain ⟨t, hteq⟩ := prefix_http b hx
      subst hteq
      exact Or.inl (hsch.trans (urlsplitM_scheme_http hv t sp hsp))
    · obtain ⟨t, hteq⟩ := prefix_https b hx
      subst hteq
      exact Or.inr (hsch.trans (urlsplitM_scheme_https hv t sp hsp))
  by_cases h0 : u = []
  · simp only [normalize_url, if_pos h0] at h
    injection h with h2
    subst h2
    exact hfix b hb
  by_cases h1 : u.take 1 = "#".data
  · simp only [normalize_url, if_neg h0, if_pos h1] at h
    injection h with h2
    subst h2
    exact hfix b hb
  by_cases h2c : u.take 2 = "//".data
  · cases hpb : urlparseM hv b [] with
    | error e =>
      simp only [normalize_url, if_neg h0, if_neg h1, if_pos h2c, hpb] at h
      exact absurd h (by simp)
    | ok pb =>
      simp only [normalize_url, if_neg h0, if_neg h1, if_pos h2c, hpb] at h
      injection h with h2
      subst h2
      have hu2 : u = '/' :: '/' :: u.drop 2 := take_two_eq h2c
      rcases hbScheme pb hpb with hs | hs
      · rw [hs, hu2]
        exact normalize_fixed_http hv b (u.drop 2)
      · rw [hs, hu2]
        exact normalize_fixed_https hv b (u.drop 2)
  by_cases h3 : ("http://".data.isPrefixOf u = true ∨ "https://".data.isPrefixOf u = true)
  · simp only [normalize_url, if_neg h0, if_neg h1, if_neg h2c,
      if_neg (not_not_intro h3)] at h
    injection h with h2
    subst h2
    exact hfix u h3
  · simp only [normalize_url, if_neg h0, if_neg h1, if_neg h2c, if_pos h3] at h
    cases hpb : urlparseM hv b [] with
    | error e =>
      simp only [urljoinM, if_neg hbne, if_neg h0, hpb] at h
      exact absurd h (by simp)
    | ok pb =>
      cases hpu : urlparseM hv u pb.scheme with
      | error e =>
        simp only [urljoinM, if_neg hbne, if_neg h0, hpb, hpu] at h
        exact absurd h (by simp)
      | ok pu =>
        simp only [urljoinM, if_neg hbne, if_neg h0, hpb, hpu] at h
        by_cases hbr : pu.scheme ≠ pb.scheme ∨ pu.scheme ∉ uses_relative
        · simp only [urljoinResolve, if_pos hbr] at h
          injection h with h2
          subst h2
          simp only [normalize_url, if_neg h0, if_neg h1, if_neg h2c, if_pos h3,
            urljoinM, if_neg hbne, hpb, hpu]
          simp only [urljoinResolve, if_pos hbr]
        · obtain ⟨n, p, pa, q, f, hr⟩ := urljoinResolve_ok_shape pb pu u r hbr h
          have hsch : pu.scheme = pb.scheme := by
            rcases not_or.mp hbr with ⟨hx, -⟩
            exact not_not.mp hx
          rcases hbScheme pb hpb with hs | hs
          · obtain ⟨rest, hrest⟩ := urlunparseM_netloc_form pu.scheme n p pa q f
              (by rw [hsch, hs]; decide) (by rw [hsch, hs]; decide)
            apply hfix
            left
            rw [hr, hrest, hsch, hs]
            exact isPrefixOf_append "http://".data rest
          · obtain ⟨rest, hrest⟩ := urlunparseM_netloc_form pu.scheme n p pa q f
              (by rw [hsch, hs]; decide) (by rw [hsch, hs]; decide)
            apply hfix
            right
            rw [hr, hrest, hsch, hs]
            exact isPrefixOf_append "https://".data rest



/-- Claim C8 (counterexample): canonicalization is not idempotent for every
URL and base.  With the empty URL and base `"//host"`, the first pass returns
the base unchanged, and the second pass prepends the (empty) scheme of the
base, yielding `"://host"` — a different string. -/
theorem C8_normalize_url_counterexample :
    normalize_url hvTrue [] "//host".data = Except.ok "//host".data ∧
    normalize_url hvTrue "//host".data "//host".data = Except.ok "://host".data ∧
    "://host".data ≠ "//host".data := by
  refine ⟨rfl, rfl, by decide⟩

theorem C8_normalize_url_idempotent_amended_witness :
    ("http://".data.isPrefixOf "http://h/p/".data = true ∨
      "https://".data.isPrefixOf "http://h/p/".data = true) ∧
    normalize_url hvTrue "a".data "http://h/p/".data = Except.ok "http://h/p/a".data ∧
    normalize_url hvTrue "http://h/p/a".data "http://h/p/".data =
      Except.ok "http://h/p/a".data :=
  ⟨Or.inl (by decide), rfl,
    C8_normalize_url_idempotent_amended hvTrue "a".data "http://h/p/".data
      "http://h/p/a".data (Or.inl (by decide)) rfl⟩

end Recrafter
